import Mathlib

/-!
Verification of the mysql-sync reconciliation core.

Shallow embedding of the repository's Python sources:
  * `src/config_loader.py` — `SmartSuiteFieldConverter`, `SyncConfig`
    (field conversion and record mapping);
  * `src/state_manager.py`  — `StateManager.calculate_hash` and the
    record-mapping / metadata / run tables (modelled as in-memory lists);
  * `src/sync_engine.py`    — `SyncEngine._sync_record` and `SyncEngine.sync`.

Python values that flow through the mapper are modelled by the inductive
`PyValue`.  Machine floats are abstracted: a float is carried as its `repr`
string, and `float(...)` conversion is modelled as a syntactic-validity check
(`parseFloat?`) returning a normalised literal.  None of the proved claims
depends on IEEE-754 digit formatting, only on the conversion being a
deterministic function and on *which* inputs raise `ValueError`.
-/

/-- A Python runtime value as it appears in source rows and destination
payloads: `None`, `bool`, `int`, `float` (carried as its `repr` string),
`str`, `decimal.Decimal` (carried as its literal), `datetime.date`,
`datetime.datetime` (second granularity, optional UTC-offset text),
`bytes`, `list`/`tuple`, and `dict` with string keys. -/
inductive PyValue : Type where
  | none : PyValue
  | bool (b : Bool) : PyValue
  | int (n : Int) : PyValue
  | float (r : String) : PyValue
  | str (s : String) : PyValue
  | decimal (lit : String) : PyValue
  | date (y m d : Nat) : PyValue
  | datetime (y mo d h mi s : Nat) (off : Option String) : PyValue
  | bytes (bs : List Nat) : PyValue
  | list (xs : List PyValue) : PyValue
  | dict (kvs : List (String × PyValue)) : PyValue

/-- A destination payload / source row: a Python dict with string keys,
kept as an insertion-ordered association list (Python dicts preserve
insertion order and have no duplicate keys). -/
abbrev PyDict := List (String × PyValue)

/-- Left-pad a numeral string with zeros to width `w` (Python `%04d` etc.). -/
def zpad (w : Nat) (n : Nat) : String :=
  let s := toString n
  let l := s.length
  (String.mk (List.replicate (w - l) '0')) ++ s

/-- `date.isoformat()`: `YYYY-MM-DD`. -/
def dateIso (y m d : Nat) : String :=
  zpad 4 y ++ "-" ++ zpad 2 m ++ "-" ++ zpad 2 d

/-- `datetime.isoformat()`: `YYYY-MM-DDTHH:MM:SS` plus the UTC offset when
one is attached (microseconds are not modelled). -/
def datetimeIso (y mo d h mi s : Nat) (off : Option String) : String :=
  dateIso y mo d ++ "T" ++ zpad 2 h ++ ":" ++ zpad 2 mi ++ ":" ++ zpad 2 s ++
    (match off with | Option.none => "" | Option.some o => o)

/-- `str(datetime)`: same as isoformat but with a space separator. -/
def datetimeStr (y mo d h mi s : Nat) (off : Option String) : String :=
  dateIso y mo d ++ " " ++ zpad 2 h ++ ":" ++ zpad 2 mi ++ ":" ++ zpad 2 s ++
    (match off with | Option.none => "" | Option.some o => o)

/-- Hex digit (lowercase), as Python produces. -/
def hexDigit (n : Nat) : Char :=
  if n < 10 then Char.ofNat (48 + n) else Char.ofNat (87 + n % 16)

/-- `w`-digit lowercase hex rendering of `n` (big-endian). -/
def hexPad (w : Nat) (n : Nat) : String :=
  String.mk ((List.range w).map (fun i => hexDigit (n / 16 ^ (w - 1 - i) % 16)))

/-- Python `str.lower()`, modelled characterwise (the field-type tags and
yes/no literals it is applied to are ASCII). -/
def strLower (s : String) : String := String.mk (s.toList.map Char.toLower)

/-- Python `repr` of a bytes object, e.g. `b'abc'` (printable ASCII kept,
everything else rendered as `\xhh`; quote handling simplified to the
single-quote form). -/
def bytesRepr (bs : List Nat) : String :=
  "b'" ++ String.join (bs.map (fun b =>
    if 32 ≤ b ∧ b ≤ 126 ∧ b ≠ 39 ∧ b ≠ 92 then String.mk [Char.ofNat b]
    else "\\x" ++ hexPad 2 b)) ++ "'"

mutual

/-- Python `str(value)` on a `PyValue` (`config_loader` uses it pervasively;
`json.dumps(..., default=str)` uses it for non-JSON types). -/
def pyStr : PyValue → String
  | .none => "None"
  | .bool b => if b then "True" else "False"
  | .int n => toString n
  | .float r => r
  | .str s => s
  | .decimal lit => lit
  | .date y m d => dateIso y m d
  | .datetime y mo d h mi s off => datetimeStr y mo d h mi s off
  | .bytes bs => bytesRepr bs
  | .list xs => "[" ++ String.intercalate ", " (pyReprList xs) ++ "]"
  | .dict kvs => "\x7b" ++ String.intercalate ", " (pyReprPairs kvs) ++ "\x7d"

/-- Python `repr(value)` (only reached through `str` of containers). -/
def pyRepr : PyValue → String
  | .str s => "'" ++ s ++ "'"
  | .bytes bs => bytesRepr bs
  | .list xs => "[" ++ String.intercalate ", " (pyReprList xs) ++ "]"
  | .dict kvs => "\x7b" ++ String.intercalate ", " (pyReprPairs kvs) ++ "\x7d"
  | .date y m d => "datetime.date(" ++ toString y ++ ", " ++ toString m ++ ", " ++ toString d ++ ")"
  | .datetime y mo d h mi s _ =>
      "datetime.datetime(" ++ String.intercalate ", "
        [toString y, toString mo, toString d, toString h, toString mi, toString s] ++ ")"
  | .decimal lit => "Decimal('" ++ lit ++ "')"
  | .none => "None"
  | .bool b => if b then "True" else "False"
  | .int n => toString n
  | .float r => r

def pyReprList : List PyValue → List String
  | [] => []
  | v :: vs => pyRepr v :: pyReprList vs

def pyReprPairs : List (String × PyValue) → List String
  | [] => []
  | (k, v) :: kvs => ("'" ++ k ++ "': " ++ pyRepr v) :: pyReprPairs kvs

end

/-- UTF-8 encoding of one unicode scalar value. -/
def utf8Char (c : Nat) : List Nat :=
  if c < 0x80 then [c]
  else if c < 0x800 then [0xC0 + c / 64, 0x80 + c % 64]
  else if c < 0x10000 then [0xE0 + c / 4096, 0x80 + c / 64 % 64, 0x80 + c % 64]
  else [0xF0 + c / 262144, 0x80 + c / 4096 % 64, 0x80 + c / 64 % 64, 0x80 + c % 64]

/-- UTF-8 encoding of a string (Python `str.encode()`). -/
def utf8Encode (s : String) : List Nat :=
  (s.toList.map (fun ch => utf8Char ch.toNat)).flatten

namespace SHA256

/-- 2^32. -/
def M32 : Nat := 4294967296

/-- 32-bit right-rotation (argument already reduced mod 2^32). -/
def rotr (n x : Nat) : Nat := (x / 2 ^ n + x % 2 ^ n * 2 ^ (32 - n)) % M32

def ch (x y z : Nat) : Nat := (x &&& y) ^^^ ((x ^^^ 4294967295) &&& z)

def maj (x y z : Nat) : Nat := (x &&& y) ^^^ (x &&& z) ^^^ (y &&& z)

def bigSigma0 (x : Nat) : Nat := rotr 2 x ^^^ rotr 13 x ^^^ rotr 22 x

def bigSigma1 (x : Nat) : Nat := rotr 6 x ^^^ rotr 11 x ^^^ rotr 25 x

def smallSigma0 (x : Nat) : Nat := rotr 7 x ^^^ rotr 18 x ^^^ x / 8

def smallSigma1 (x : Nat) : Nat := rotr 17 x ^^^ rotr 19 x ^^^ x / 1024

/-- The 64 round constants (FIPS 180-4). -/
def K : List Nat :=
  [1116352408, 1899447441, 3049323471, 3921009573, 961987163, 1508970993,
   2453635748, 2870763221, 3624381080, 310598401, 607225278, 1426881987,
   1925078388, 2162078206, 2614888103, 3248222580, 3835390401, 4022224774,
   264347078, 604807628, 770255983, 1249150122, 1555081692, 1996064986,
   2554220882, 2821834349, 2952996808, 3210313671, 3336571891, 3584528711,
   113926993, 338241895, 666307205, 773529912, 1294757372, 1396182291,
   1695183700, 1986661051, 2177026350, 2456956037, 2730485921, 2820302411,
   3259730800, 3345764771, 3516065817, 3600352804, 4094571909, 275423344,
   430227734, 506948616, 659060556, 883997877, 958139571, 1322822218,
   1537002063, 1747873779, 1955562222, 2024104815, 2227730452, 2361852424,
   2428436474, 2756734187, 3204031479, 3329325298]

/-- Initial hash state (FIPS 180-4). -/
def H0 : List Nat :=
  [1779033703, 3144134277, 1013904242, 2773480762,
   1359893119, 2600822924, 528734635, 1541459225]

/-- Big-endian byte rendering of `v` in exactly `n` bytes. -/
def toBytesBE (n : Nat) (v : Nat) : List Nat :=
  (List.range n).map (fun i => v / 256 ^ (n - 1 - i) % 256)

/-- SHA-256 padding: append `0x80`, zero bytes to 56 mod 64, then the
bit length as 8 big-endian bytes. -/
def padBytes (msg : List Nat) : List Nat :=
  let L := msg.length
  let zeros := (56 + 64 - (L + 1) % 64) % 64
  msg ++ [0x80] ++ List.replicate zeros 0 ++ toBytesBE 8 (L * 8 % 2 ^ 64)

/-- Split a byte list into 64-byte blocks (accumulator holds the current
block reversed; structural recursion so the kernel can evaluate it). -/
def chunksGo : List Nat → List Nat → Nat → List (List Nat)
  | [], cur, _ => if cur.isEmpty then [] else [cur.reverse]
  | b :: rest, cur, curLen =>
      if curLen = 63 then (b :: cur).reverse :: chunksGo rest [] 0
      else chunksGo rest (b :: cur) (curLen + 1)

/-- Split a byte list into 64-byte blocks. -/
def chunks64 (bs : List Nat) : List (List Nat) := chunksGo bs [] 0

/-- Group bytes into big-endian 32-bit words. -/
def wordsOfBytes : List Nat → List Nat
  | a :: b :: c :: d :: rest =>
      (a * 16777216 + b * 65536 + c * 256 + d) :: wordsOfBytes rest
  | _ => []

/-- Message-schedule extension, most-recent word first: with `rws` holding
`W[i-1], W[i-2], …`, the next word is
`σ1 W[i-2] + W[i-7] + σ0 W[i-15] + W[i-16]  (mod 2^32)`. -/
def extendFuel : List Nat → Nat → List Nat
  | rws, 0 => rws.reverse
  | rws, fuel + 1 =>
      let w := (smallSigma1 (rws.getD 1 0) + rws.getD 6 0 +
                smallSigma0 (rws.getD 14 0) + rws.getD 15 0) % M32
      extendFuel (w :: rws) fuel

/-- One round of the compression function. -/
def round (st : Nat × Nat × Nat × Nat × Nat × Nat × Nat × Nat) (kw : Nat × Nat) :
    Nat × Nat × Nat × Nat × Nat × Nat × Nat × Nat :=
  let (a, b, c, d, e, f, g, h) := st
  let t1 := (h + bigSigma1 e + ch e f g + kw.1 + kw.2) % M32
  let t2 := (bigSigma0 a + maj a b c) % M32
  ((t1 + t2) % M32, a, b, c, (d + t1) % M32, e, f, g)

/-- Compress one 64-byte block into the running hash state. -/
def compress (hs : List Nat) (block : List Nat) : List Nat :=
  let ws := extendFuel (wordsOfBytes block).reverse 48
  let init : Nat × Nat × Nat × Nat × Nat × Nat × Nat × Nat :=
    (hs.getD 0 0, hs.getD 1 0, hs.getD 2 0, hs.getD 3 0,
     hs.getD 4 0, hs.getD 5 0, hs.getD 6 0, hs.getD 7 0)
  let st := (K.zip ws).foldl round init
  [(hs.getD 0 0 + st.1) % M32, (hs.getD 1 0 + st.2.1) % M32,
   (hs.getD 2 0 + st.2.2.1) % M32, (hs.getD 3 0 + st.2.2.2.1) % M32,
   (hs.getD 4 0 + st.2.2.2.2.1) % M32, (hs.getD 5 0 + st.2.2.2.2.2.1) % M32,
   (hs.getD 6 0 + st.2.2.2.2.2.2.1) % M32, (hs.getD 7 0 + st.2.2.2.2.2.2.2) % M32]

/-- SHA-256 digest of a byte sequence, as the eight 32-bit state words. -/
def sha256Words (msg : List Nat) : List Nat :=
  (chunks64 (padBytes msg)).foldl compress H0

/-- The digest as a single natural number below 2^256. -/
def sha256Nat (msg : List Nat) : Nat :=
  (sha256Words msg).foldl (fun acc w => acc * M32 + w) 0

/-- `hashlib.sha256(bytes).hexdigest()`: 64 lowercase hex characters. -/
def sha256Hex (msg : List Nat) : String :=
  String.join ((sha256Words msg).map (hexPad 8))

end SHA256

/-! ## Canonical JSON serialization (`json.dumps(data, sort_keys=True, default=str)`)

`StateManager.calculate_hash` normalizes a payload with
`json.dumps(data, sort_keys=True, default=str)` (default separators
`", "` / `": "`, `ensure_ascii=True`) and hashes the UTF-8 bytes with
SHA-256.  `sort_keys=True` sorts each object's items; dict keys are unique
in Python, so ordering by key alone reproduces `sorted(items)`. -/

/-- One character of Python's `ensure_ascii` JSON string escaping:
`"` and `\` and the C0 controls get their escapes, printable ASCII is kept,
everything else becomes `\uXXXX` (surrogate pairs above the BMP). -/
def jsonEscapeChar (c : Char) : String :=
  if c = '"' then "\\\""
  else if c = '\\' then "\\\\"
  else if c = '\n' then "\\n"
  else if c = '\r' then "\\r"
  else if c = '\t' then "\\t"
  else if c.toNat = 8 then "\\b"
  else if c.toNat = 12 then "\\f"
  else if 32 ≤ c.toNat ∧ c.toNat ≤ 126 then String.mk [c]
  else if c.toNat < 65536 then "\\u" ++ hexPad 4 c.toNat
  else
    "\\u" ++ hexPad 4 (55296 + (c.toNat - 65536) / 1024) ++
    "\\u" ++ hexPad 4 (56320 + (c.toNat - 65536) % 1024)

/-- A JSON string literal with Python's escaping. -/
def jsonString (s : String) : String :=
  "\"" ++ String.join (s.toList.map jsonEscapeChar) ++ "\""

mutual

/-- The canonical serialization used by `calculate_hash`:
`json.dumps(·, sort_keys=True, default=str)`.  JSON-native values render
natively; `Decimal`, `date`, `datetime` and `bytes` are not JSON
serializable, so `default=str` renders them as `str(value)` string
literals. -/
def jsonSerialize : PyValue → String
  | .none => "null"
  | .bool b => if b then "true" else "false"
  | .int n => toString n
  | .float r => r
  | .str s => jsonString s
  | .decimal lit => jsonString lit
  | .date y m d => jsonString (dateIso y m d)
  | .datetime y mo d h mi s off => jsonString (datetimeStr y mo d h mi s off)
  | .bytes bs => jsonString (bytesRepr bs)
  | .list xs => "[" ++ String.intercalate ", " (jsonSerializeList xs) ++ "]"
  | .dict kvs =>
      "\x7b" ++ String.intercalate ", "
        ((List.insertionSort (fun a b => a.1 ≤ b.1) (jsonSerializePairs kvs)).map
          (fun p => jsonString p.1 ++ ": " ++ p.2)) ++ "\x7d"

def jsonSerializeList : List PyValue → List String
  | [] => []
  | v :: vs => jsonSerialize v :: jsonSerializeList vs

def jsonSerializePairs : List (String × PyValue) → List (String × String)
  | [] => []
  | (k, v) :: kvs => (k, jsonSerialize v) :: jsonSerializePairs kvs

end

namespace StateManager

/-- `StateManager.calculate_hash` (src/state_manager.py:185-197):
`sha256(json.dumps(data, sort_keys=True, default=str).encode()).hexdigest()`. -/
def calculate_hash (data : PyDict) : String :=
  SHA256.sha256Hex (utf8Encode (jsonSerialize (PyValue.dict data)))

end StateManager

/-! ## Models of Python library primitives used by `config_loader`

`float(...)`, `bytes.decode('utf-8')` and `datetime.fromisoformat` are
CPython builtins; they are modelled here as executable functions.  The
float model validates the literal syntax `float()` accepts and carries the
trimmed literal as the float's textual form (IEEE-754 shortest-repr digit
formatting is abstracted; no proved claim depends on the exact digits). -/

/-- ASCII decimal digit test. -/
def isDigitChar (c : Char) : Bool := 48 ≤ c.toNat && c.toNat ≤ 57

/-- Digit value. -/
def digitVal (c : Char) : Nat := c.toNat - 48

/-- Decimal read of a digit string. -/
def digitsToNat (cs : List Char) : Nat := cs.foldl (fun a c => a * 10 + digitVal c) 0

/-- Python `str.isdigit()` restricted to ASCII. -/
def isdigitStr (s : String) : Bool := !s.toList.isEmpty && s.toList.all isDigitChar

/-- Leading digit span: count and remainder. -/
def dropDigits : List Char → Nat × List Char
  | [] => (0, [])
  | c :: cs =>
      if isDigitChar c then
        let (n, r) := dropDigits cs
        (n + 1, r)
      else (0, c :: cs)

/-- Python whitespace stripped by `float(str)`. -/
def isPySpace (c : Char) : Bool :=
  c = ' ' || c.toNat = 9 || c.toNat = 10 || c.toNat = 11 || c.toNat = 12 || c.toNat = 13

/-- Strip leading and trailing whitespace from a char list. -/
def trimChars (cs : List Char) : List Char :=
  ((cs.dropWhile isPySpace).reverse.dropWhile isPySpace).reverse

/-- An optional exponent part: empty, or `e`/`E` `[+-]` digits. -/
def validExpPart : List Char → Bool
  | [] => true
  | c :: rest =>
      if c = 'e' || c = 'E' then
        let rest2 := match rest with
          | s :: t => if s = '+' || s = '-' then t else s :: t
          | [] => []
        let (n, r) := dropDigits rest2
        decide (0 < n) && r.isEmpty
      else false

/-- Mantissa: `digits [. digits]` or `. digits`, then optional exponent. -/
def validFloatBody (cs : List Char) : Bool :=
  let (n1, r1) := dropDigits cs
  match r1 with
  | '.' :: r2 =>
      let (n2, r3) := dropDigits r2
      decide (0 < n1 + n2) && validExpPart r3
  | r => decide (0 < n1) && validExpPart r

/-- Model of `float(s)` on a string: `some` of the float's textual form
when the literal is valid (sign, decimal mantissa, exponent, `inf`,
`infinity`, `nan`, surrounding whitespace), `none` when `float()` raises
`ValueError`. -/
def parseFloat? (s : String) : Option String :=
  let t := trimChars s.toList
  let body := match t with
    | c :: rest => if c = '+' || c = '-' then rest else t
    | [] => []
  let bodyLower := String.mk (body.map Char.toLower)
  if bodyLower = "inf" || bodyLower = "infinity" || bodyLower = "nan" then
    Option.some (String.mk t)
  else if validFloatBody body then Option.some (String.mk t)
  else Option.none

/-- `str(float(...))` of a decimal literal (already validated at `Decimal`
construction): keep the literal, giving integral literals the `.0` that
`float` formatting adds. -/
def floatStrOfLit (lit : String) : String :=
  if lit.toList.any (fun c => c = '.' || c = 'e' || c = 'E') then lit else lit ++ ".0"

/-- Decode one UTF-8 sequence; returns scalar value and remaining bytes. -/
def utf8DecodeOne : List Nat → Option (Nat × List Nat)
  | [] => Option.none
  | b :: rest =>
      if b < 0x80 then Option.some (b, rest)
      else if b < 0xC2 then Option.none
      else if b < 0xE0 then
        match rest with
        | c1 :: r =>
            if 0x80 ≤ c1 && c1 < 0xC0 then Option.some ((b - 0xC0) * 64 + (c1 - 0x80), r)
            else Option.none
        | _ => Option.none
      else if b < 0xF0 then
        match rest with
        | c1 :: c2 :: r =>
            if 0x80 ≤ c1 && c1 < 0xC0 && 0x80 ≤ c2 && c2 < 0xC0 then
              let v := (b - 0xE0) * 4096 + (c1 - 0x80) * 64 + (c2 - 0x80)
              if 0x800 ≤ v && !(0xD800 ≤ v && v ≤ 0xDFFF) then Option.some (v, r) else Option.none
            else Option.none
        | _ => Option.none
      else if b < 0xF5 then
        match rest with
        | c1 :: c2 :: c3 :: r =>
            if 0x80 ≤ c1 && c1 < 0xC0 && 0x80 ≤ c2 && c2 < 0xC0 && 0x80 ≤ c3 && c3 < 0xC0 then
              let v := (b - 0xF0) * 262144 + (c1 - 0x80) * 4096 + (c2 - 0x80) * 64 + (c3 - 0x80)
              if 0x10000 ≤ v && v ≤ 0x10FFFF then Option.some (v, r) else Option.none
            else Option.none
        | _ => Option.none
      else Option.none

/-- Fuelled UTF-8 decode loop (`utf8DecodeOne` consumes at least one byte,
so fuel `bs.length` always suffices; structural recursion keeps the
function kernel-reducible). -/
def utf8DecodeGo : Nat → List Nat → Option (List Char)
  | _, [] => Option.some []
  | 0, _ :: _ => Option.none
  | fuel + 1, b :: rest =>
      match utf8DecodeOne (b :: rest) with
      | Option.none => Option.none
      | Option.some (v, r) =>
          match utf8DecodeGo fuel r with
          | Option.some cs => Option.some (Char.ofNat v :: cs)
          | Option.none => Option.none

/-- Model of `bytes.decode('utf-8')`: `none` when Python raises
`UnicodeDecodeError`. -/
def utf8Decode (bs : List Nat) : Option String :=
  (utf8DecodeGo bs.length bs).map String.mk

/-- Days in a month (proleptic Gregorian, as Python's `datetime` validates). -/
def daysInMonth (y m : Nat) : Nat :=
  if m = 2 then
    if y % 4 = 0 && (y % 100 ≠ 0 || y % 400 = 0) then 29 else 28
  else if m = 4 || m = 6 || m = 9 || m = 11 then 30
  else 31

/-- Parse exactly two ASCII digits. -/
def parse2 : List Char → Option (Nat × List Char)
  | a :: b :: r => if isDigitChar a && isDigitChar b then Option.some (digitVal a * 10 + digitVal b, r) else Option.none
  | _ => Option.none

/-- Parse a trailing `±HH:MM` UTC offset (as `datetime.fromisoformat`
accepts); returns the normalized offset text. -/
def parseIsoOffset : List Char → Option (Option String)
  | [] => Option.some Option.none
  | sign :: rest =>
      if sign = '+' || sign = '-' then
        match parse2 rest with
        | Option.some (hh, ':' :: rest2) =>
            match parse2 rest2 with
            | Option.some (mm, []) =>
                if hh < 24 && mm < 60 then
                  Option.some (Option.some (String.mk [sign] ++ zpad 2 hh ++ ":" ++ zpad 2 mm))
                else Option.none
            | _ => Option.none
        | _ => Option.none
      else Option.none

/-- Parse `HH:MM[:SS][offset]` after the separator. -/
def parseIsoTime (y mo d : Nat) : List Char → Option PyValue
  | cs =>
      match parse2 cs with
      | Option.some (h, ':' :: cs2) =>
          (match parse2 cs2 with
           | Option.some (mi, cs3) =>
               if h < 24 && mi < 60 then
                 match cs3 with
                 | ':' :: cs4 =>
                     (match parse2 cs4 with
                      | Option.some (s, cs5) =>
                          if s < 60 then
                            (parseIsoOffset cs5).map (PyValue.datetime y mo d h mi s)
                          else Option.none
                      | _ => Option.none)
                 | _ => (parseIsoOffset cs3).map (PyValue.datetime y mo d h mi 0)
               else Option.none
           | _ => Option.none)
      | _ => Option.none

/-- Model of `datetime.fromisoformat` (restricted to the shapes this
system produces: `YYYY-MM-DD`, optionally a `T`/space separator and
`HH:MM[:SS]`, optionally a `±HH:MM` offset; fractional seconds are not
modelled).  Returns the parsed `datetime`, `none` where Python raises
`ValueError`. -/
def fromisoformat (s : String) : Option PyValue :=
  match s.toList with
  | y1 :: y2 :: y3 :: y4 :: '-' :: m1 :: m2 :: '-' :: d1 :: d2 :: rest =>
      if [y1, y2, y3, y4, m1, m2, d1, d2].all isDigitChar then
        let y := digitsToNat [y1, y2, y3, y4]
        let mo := digitsToNat [m1, m2]
        let d := digitsToNat [d1, d2]
        if 1 ≤ mo && mo ≤ 12 && 1 ≤ d && d ≤ daysInMonth y mo && 1 ≤ y then
          match rest with
          | [] => Option.some (PyValue.datetime y mo d 0 0 0 Option.none)
          | sep :: timeCs =>
              if sep = 'T' || sep = ' ' then parseIsoTime y mo d timeCs
              else Option.none
        else Option.none
      else Option.none
  | _ => Option.none

/-- `value.replace('Z', '+00:00')` — the pattern is a single character, so
characterwise replacement is exact. -/
def replaceZ (s : String) : String :=
  String.join (s.toList.map (fun c => if c = 'Z' then "+00:00" else String.mk [c]))

/-- Python truthiness (`bool(value)`) on the modelled values.  A float is
falsy exactly when it is a zero; on the textual float model this is read
off the carried literal. -/
def pyTruthy : PyValue → Bool
  | .none => false
  | .bool b => b
  | .int n => decide (n ≠ 0)
  | .float r => !(r = "0.0" || r = "-0.0" || r = "0" || r = "-0")
  | .str s => !(s = "")
  | .decimal lit => lit.toList.any (fun c => isDigitChar c && c ≠ '0')
  | .date _ _ _ => true
  | .datetime _ _ _ _ _ _ _ => true
  | .bytes bs => !bs.isEmpty
  | .list xs => !xs.isEmpty
  | .dict kvs => !kvs.isEmpty

/-- `str(float(value))` over the value kinds `float()` accepts; `none`
models the `TypeError`/`ValueError` that `float()` raises otherwise
(`bool` is an `int` subtype in Python, so it converts; `bytes` are decoded
as an ASCII literal first). -/
def pyFloat? : PyValue → Option String
  | .int n => Option.some (toString n ++ ".0")
  | .float r => Option.some r
  | .bool b => Option.some (if b then "1.0" else "0.0")
  | .decimal lit => Option.some (floatStrOfLit lit)
  | .str s => parseFloat? s
  | .bytes bs => (utf8Decode bs).bind parseFloat?
  | _ => Option.none

namespace SmartSuiteFieldConverter

/-- Options extracted from a field's type configuration
(`transform_value` forwards only `value_map` and `include_time`;
`options.get('value_map', {})` defaults to empty, `include_time` to
false). -/
structure ConvertOptions where
  value_map : List (String × String) := []
  include_time : Bool := false

/-- `_null_value_for_type` (src/config_loader.py:63-76). -/
def null_value_for_type (field_type : String) : PyValue :=
  let ft := strLower field_type
  if ["multipleselectfield", "emailfield", "phonefield",
      "linkfield", "linkedrecordfield", "memberfield"].contains ft then .list []
  else if ft = "yesno" then .bool false
  else if ["number", "currency", "percent"].contains ft then .str "0"
  else if ft = "date" then .dict [("date", .none), ("include_time", .bool false)]
  else .str ""

/-- `to_text` / `to_textarea` (also `title` and the unknown-type default):
`str(value) if value is not None else ""`. -/
def to_text (value : PyValue) : PyValue :=
  match value with
  | .none => .str ""
  | v => .str (pyStr v)

/-- `to_number` (src/config_loader.py:88-93): `str(float(value))`, `"0"`
for `None`; raises `ValueError`/`TypeError` when `float()` does (the
`Decimal` branch is the same expression as the general one). -/
def to_number (value : PyValue) : Except String PyValue :=
  match value with
  | .none => .ok (.str "0")
  | v =>
      match pyFloat? v with
      | Option.some r => .ok (.str r)
      | Option.none => .error "float() conversion failed"

/-- `to_currency`: same body as `to_number`. -/
def to_currency (value : PyValue) : Except String PyValue := to_number value

/-- `to_percent`: same body as `to_number`. -/
def to_percent (value : PyValue) : Except String PyValue := to_number value

/-- `to_date` (src/config_loader.py:109-152).  `datetime` always sets
`include_time` true; `date` is promoted to midnight with the caller's
flag; a string is parsed with `fromisoformat` after `'Z' → '+00:00'`
replacement, and handed back unmodified when parsing fails (the bare
`except` makes the fallback total); anything else is stringified. -/
def to_date (value : PyValue) (opts : ConvertOptions) : PyValue :=
  let include_time := opts.include_time
  match value with
  | .none => .dict [("date", .none), ("include_time", .bool include_time)]
  | .datetime y mo d h mi s off =>
      .dict [("date", .str (datetimeIso y mo d h mi s off)), ("include_time", .bool true)]
  | .date y m d =>
      .dict [("date", .str (datetimeIso y m d 0 0 0 Option.none)),
             ("include_time", .bool include_time)]
  | .str s =>
      (match fromisoformat (replaceZ s) with
       | Option.some (.datetime y mo d h mi sec off) =>
           .dict [("date", .str (datetimeIso y mo d h mi sec off)),
                  ("include_time", .bool include_time)]
       | _ => .dict [("date", .str s), ("include_time", .bool include_time)])
  | v => .dict [("date", .str (pyStr v)), ("include_time", .bool include_time)]

/-- `to_single_select` (src/config_loader.py:154-168): stringify, then
substitute through the value map when the key is present (an empty map —
Python falsy — never substitutes, which `lookup` reproduces). -/
def to_single_select (value : PyValue) (opts : ConvertOptions) : PyValue :=
  let str_value := match value with
    | .none => ""
    | v => pyStr v
  match opts.value_map.lookup str_value with
  | Option.some mapped => .str mapped
  | Option.none => .str str_value

/-- `to_multiple_select` (src/config_loader.py:170-187): listify, drop
`None` elements, stringify, substitute each through the value map with
pass-through fallback. -/
def to_multiple_select (value : PyValue) (opts : ConvertOptions) : PyValue :=
  let values : List String :=
    match value with
    | .none => []
    | .list xs => xs.filterMap (fun v => match v with
        | .none => Option.none
        | v => Option.some (pyStr v))
    | v => [pyStr v]
  .list ((values.map (fun v =>
    match opts.value_map.lookup v with
    | Option.some m => m
    | Option.none => v)).map .str)

/-- `to_yesno` (src/config_loader.py:189-198). -/
def to_yesno (value : PyValue) : PyValue :=
  match value with
  | .none => .bool false
  | .bool b => .bool b
  | .str s => .bool (["true", "yes", "1", "t", "y", "on"].contains (strLower s))
  | v => .bool (pyTruthy v)

/-- Shared body of `to_email` / `to_link` / `to_linked_record` /
`to_assigned_to`: listify, keep truthy elements, stringify. -/
def stringArrayOfTruthy (value : PyValue) : PyValue :=
  match value with
  | .none => .list []
  | .list xs => .list ((xs.filter pyTruthy).map (fun v => .str (pyStr v)))
  | v => if pyTruthy v then .list [.str (pyStr v)] else .list []

/-- `to_email` (src/config_loader.py:200-207). -/
def to_email (value : PyValue) : PyValue := stringArrayOfTruthy value

/-- `to_link` (src/config_loader.py:311-318). -/
def to_link (value : PyValue) : PyValue := stringArrayOfTruthy value

/-- `to_linked_record` (src/config_loader.py:320-327). -/
def to_linked_record (value : PyValue) : PyValue := stringArrayOfTruthy value

/-- `to_assigned_to` (src/config_loader.py:329-336). -/
def to_assigned_to (value : PyValue) : PyValue := stringArrayOfTruthy value

/-- `_create_phone_object` (src/config_loader.py:252-270). -/
def create_phone_object (phone_number : String) (country : String) (phone_type : Int) : PyValue :=
  .dict [("phone_country", .str country), ("phone_number", .str phone_number),
         ("phone_extension", .str ""), ("phone_type", .int phone_type)]

/-- `d.get(k)` as the truthy operand of an `or` chain: the value when it
is present and truthy, otherwise nothing. -/
def getTruthy (d : List (String × PyValue)) (k : String) : Option PyValue :=
  match d.lookup k with
  | Option.some v => if pyTruthy v then Option.some v else Option.none
  | Option.none => Option.none

/-- `_format_phone_object` (src/config_loader.py:272-309): resolve the
number / country / extension / type through `or`-chains of aliased keys,
then coerce a digit-string type to `int` and any other non-`int` type to
the default (Python's `bool` passes the `int` check and is kept). -/
def format_phone_object (d : List (String × PyValue)) (default_country : String)
    (default_type : Int) : PyValue :=
  let phone_number : PyValue :=
    match getTruthy d "phone_number" with
    | Option.some v => v
    | Option.none =>
      match getTruthy d "number" with
      | Option.some v => v
      | Option.none =>
        match getTruthy d "phone" with
        | Option.some v => v
        | Option.none => .str (pyStr ((d.lookup "value").getD (.str "")))
  let country : PyValue :=
    match getTruthy d "phone_country" with
    | Option.some v => v
    | Option.none =>
      match getTruthy d "country" with
      | Option.some v => v
      | Option.none => .str default_country
  let extension : PyValue :=
    match getTruthy d "phone_extension" with
    | Option.some v => .str (pyStr v)
    | Option.none =>
      match getTruthy d "extension" with
      | Option.some v => .str (pyStr v)
      | Option.none => .str ""
  let phone_type0 : PyValue :=
    match getTruthy d "phone_type" with
    | Option.some v => v
    | Option.none =>
      match getTruthy d "type" with
      | Option.some v => v
      | Option.none => .int default_type
  let phone_type : PyValue :=
    match phone_type0 with
    | .str s => if isdigitStr s then .int (digitsToNat s.toList) else .int default_type
    | .int n => .int n
    | .bool b => .bool b
    | _ => .int default_type
  .dict [("phone_country", country), ("phone_number", phone_number),
         ("phone_extension", extension), ("phone_type", phone_type)]

/-- `to_phone` (src/config_loader.py:209-250).  `transform_value` never
forwards `default_country`/`default_type`, so the defaults `'US'` and `2`
always apply on this path. -/
def to_phone (value : PyValue) : PyValue :=
  let default_country := "US"
  let default_type : Int := 2
  match value with
  | .none => .list []
  | .list xs =>
      .list (xs.filterMap (fun v =>
        match v with
        | .dict d => Option.some (format_phone_object d default_country default_type)
        | v => if pyTruthy v
               then Option.some (create_phone_object (pyStr v) default_country default_type)
               else Option.none))
  | .dict d =>
      if (PyValue.dict d) |> pyTruthy
      then .list [format_phone_object d default_country default_type]
      else .list []
  | v =>
      if pyTruthy v
      then .list [create_phone_object (pyStr v) default_country default_type]
      else .list []

/-- `SmartSuiteFieldConverter.convert` (src/config_loader.py:21-61):
`None` short-circuits to the per-type null value; otherwise dispatch on
the lowercased type tag, defaulting to the text converter for unknown
tags. -/
def convert (value : PyValue) (field_type : String) (opts : ConvertOptions) :
    Except String PyValue :=
  match value with
  | .none => .ok (null_value_for_type field_type)
  | v =>
      match strLower field_type with
      | "text" => .ok (to_text v)
      | "textarea" => .ok (to_text v)
      | "title" => .ok (to_text v)
      | "number" => to_number v
      | "currency" => to_currency v
      | "percent" => to_percent v
      | "date" => .ok (to_date v opts)
      | "singleselect" => .ok (to_single_select v opts)
      | "multipleselectfield" => .ok (to_multiple_select v opts)
      | "yesno" => .ok (to_yesno v)
      | "emailfield" => .ok (to_email v)
      | "phonefield" => .ok (to_phone v)
      | "linkfield" => .ok (to_link v)
      | "linkedrecordfield" => .ok (to_linked_record v)
      | "memberfield" => .ok (to_assigned_to v)
      | _ => .ok (to_text v)

end SmartSuiteFieldConverter

/-- One entry of `destination.field_types`: the SmartSuite type tag
(`field_config.get('type', 'text')` — the default is baked in at model
construction) and the optional options `transform_value` forwards. -/
structure FieldTypeConfig where
  type : String := "text"
  value_map : Option (List (String × String)) := Option.none
  include_time : Option Bool := Option.none

/-- One entry of the deprecated `destination.transformations` format. -/
structure TransformConfig where
  type : Option String := Option.none
  value_map : List (String × String) := []
  include_time : Bool := false

/-- `SyncConfig` (src/config_loader.py:339-365): the fields the mapper and
engine read.  `field_mappings` and the two type maps are association
lists in configuration order. -/
structure SyncConfig where
  name : String
  enabled : Bool := true
  description : String := ""
  query : String := ""
  primary_key : String
  updated_at_field : Option String := Option.none
  table_id : String := ""
  field_mappings : List (String × String)
  external_id_field : String := ""
  field_types : List (String × FieldTypeConfig) := []
  transformations : List (String × TransformConfig) := []

namespace SyncConfig

open SmartSuiteFieldConverter

/-- `SyncConfig._auto_convert` (src/config_loader.py:419-446): automatic
conversion by runtime type.  `None` passes through as a literal null;
`bytes.decode('utf-8')` can raise `UnicodeDecodeError`. -/
def auto_convert (value : PyValue) : Except String PyValue :=
  match value with
  | .none => .ok .none
  | .decimal lit => .ok (.str (floatStrOfLit lit))
  | .datetime y mo d h mi s off =>
      .ok (.dict [("date", .str (datetimeIso y mo d h mi s off)), ("include_time", .bool true)])
  | .date y m d =>
      .ok (.dict [("date", .str (datetimeIso y m d 0 0 0 Option.none)),
                  ("include_time", .bool false)])
  | .bytes bs =>
      (match utf8Decode bs with
       | Option.some s => .ok (.str s)
       | Option.none => .error "UnicodeDecodeError")
  | .bool b => .ok (.bool b)
  | .int n => .ok (.str (toString n))
  | .float r => .ok (.str r)
  | v => .ok (.str (pyStr v))

/-- `SyncConfig._legacy_transform` (src/config_loader.py:400-417): the
`try` body dispatches on the legacy `type` tag; an exception inside it is
caught (logged) and control falls through to `_auto_convert`, which is
also the path for unknown tags. -/
def legacy_transform (tr : TransformConfig) (value : PyValue) : Except String PyValue :=
  match tr.type with
  | Option.some "number" =>
      (match to_number value with
       | .ok v => .ok v
       | .error _ => auto_convert value)
  | Option.some "choice" =>
      .ok (to_single_select value { value_map := tr.value_map })
  | Option.some "date" =>
      .ok (to_date value { include_time := tr.include_time })
  | _ => auto_convert value

/-- `SyncConfig.transform_value` (src/config_loader.py:367-398): a
declared field type wins, then a legacy transformation, then automatic
conversion. -/
def transform_value (cfg : SyncConfig) (field_name : String) (value : PyValue) :
    Except String PyValue :=
  match cfg.field_types.lookup field_name with
  | Option.some fc =>
      convert value fc.type
        { value_map := fc.value_map.getD [], include_time := fc.include_time.getD false }
  | Option.none =>
      match cfg.transformations.lookup field_name with
      | Option.some tr => legacy_transform tr value
      | Option.none => auto_convert value

/-- Python dict assignment `mapped[k] = v`: replace in place when the key
exists, append otherwise. -/
def dictSet (d : PyDict) (k : String) (v : PyValue) : PyDict :=
  if d.any (fun p => p.1 = k) then d.map (fun p => if p.1 = k then (k, v) else p)
  else d ++ [(k, v)]

/-- The `for source_field, smartsuite_field in field_mappings.items()`
loop of `map_record`, as explicit recursion over the remaining mapping
entries with the accumulated destination dict. -/
def map_record_go (cfg : SyncConfig) (source_record : PyDict) :
    List (String × String) → PyDict → Except String PyDict
  | [], mapped => .ok mapped
  | (source_field, smartsuite_field) :: rest, mapped =>
      match source_record.lookup source_field with
      | Option.some value =>
          (match transform_value cfg source_field value with
           | .ok tv => map_record_go cfg source_record rest (dictSet mapped smartsuite_field tv)
           | .error e => .error e)
      | Option.none => map_record_go cfg source_record rest mapped

/-- `SyncConfig.map_record` (src/config_loader.py:448-466): walk the
configured field mapping in order; source fields absent from the record
are skipped; each present value is transformed and written to the
destination field name.  Propagates the first conversion exception. -/
def map_record (cfg : SyncConfig) (source_record : PyDict) : Except String PyDict :=
  map_record_go cfg source_record cfg.field_mappings []

end SyncConfig

/-- SQL `UPDATE … WHERE key = k` over an association list: rewrite the
value of every row whose key matches (keys are unique in the modelled
tables, so at most one row changes). -/
def updateWhere {α β : Type} [DecidableEq α] (k : α) (f : β → β) :
    List (α × β) → List (α × β)
  | [] => []
  | p :: t =>
      if p.1 = k then (p.1, f p.2) :: updateWhere k f t
      else p :: updateWhere k f t

namespace StateManager

/-- One row of `record_mappings` (less the surrogate id): destination
record id, content fingerprint, and the two timestamps.  The
`UNIQUE(sync_name, source_id)` key is the association-list key. -/
structure MappingRow where
  smartsuite_record_id : String
  data_hash : String
  created_at : String
  updated_at : String
deriving DecidableEq, Repr

/-- One row of `sync_metadata` (primary key `sync_name`). -/
structure MetadataRow where
  last_sync_time : Option String := Option.none
  last_successful_run : Option String := Option.none
deriving DecidableEq, Repr

/-- One row of `sync_runs`. -/
structure RunRow where
  id : Nat
  sync_name : String
  started_at : String
  completed_at : Option String := Option.none
  status : String
  records_processed : Nat := 0
  records_created : Nat := 0
  records_updated : Nat := 0
  records_skipped : Nat := 0
  error_message : Option String := Option.none
deriving DecidableEq, Repr

/-- The SQLite state database of `StateManager`, as in-memory tables. -/
structure StateDB where
  record_mappings : List ((String × String) × MappingRow) := []
  sync_metadata : List (String × MetadataRow) := []
  sync_runs : List RunRow := []
deriving DecidableEq, Repr

/-- `get_last_sync_time` (src/state_manager.py:82-99). -/
def get_last_sync_time (db : StateDB) (sync_name : String) : Option String :=
  (db.sync_metadata.lookup sync_name).bind (fun r => r.last_sync_time)

/-- `update_last_sync_time` (src/state_manager.py:101-118): upsert keyed
on `sync_name`; refreshes both `last_sync_time` and
`last_successful_run` (the latter with the wall clock, modelled by
`now`). -/
def update_last_sync_time (db : StateDB) (sync_name sync_time now : String) : StateDB :=
  if (db.sync_metadata.lookup sync_name).isSome then
    { db with sync_metadata :=
        (updateWhere sync_name
          (fun _ => { last_sync_time := Option.some sync_time,
                      last_successful_run := Option.some now })
          db.sync_metadata) }
  else
    { db with sync_metadata := db.sync_metadata ++
        [(sync_name, { last_sync_time := Option.some sync_time,
                       last_successful_run := Option.some now })] }

/-- `start_sync_run` (src/state_manager.py:120-137): insert a `running`
row and return its id (`AUTOINCREMENT` modelled as row count + 1; the
rare `UNIQUE(sync_name, started_at)` collision at second granularity is
not modelled). -/
def start_sync_run (db : StateDB) (sync_name now : String) : Nat × StateDB :=
  let run_id := db.sync_runs.length + 1
  (run_id, { db with sync_runs := db.sync_runs ++
    [{ id := run_id, sync_name := sync_name, started_at := now, status := "running" }] })

/-- `complete_sync_run` (src/state_manager.py:139-183). -/
def complete_sync_run (db : StateDB) (run_id : Nat) (status : String)
    (records_processed records_created records_updated records_skipped : Nat)
    (error_message : Option String) (now : String) : StateDB :=
  { db with sync_runs := db.sync_runs.map (fun r =>
      if r.id = run_id then
        { r with completed_at := Option.some now, status := status,
                 records_processed := records_processed,
                 records_created := records_created,
                 records_updated := records_updated,
                 records_skipped := records_skipped,
                 error_message := error_message }
      else r) }

/-- `get_record_mapping` (src/state_manager.py:199-230). -/
def get_record_mapping (db : StateDB) (sync_name source_id : String) : Option MappingRow :=
  db.record_mappings.lookup (sync_name, source_id)

/-- `save_record_mapping` (src/state_manager.py:232-261): upsert keyed on
`(sync_name, source_id)`; on conflict the destination id, hash and
`updated_at` are refreshed while `created_at` is preserved. -/
def save_record_mapping (db : StateDB) (sync_name source_id smartsuite_record_id data_hash now : String) :
    StateDB :=
  if (db.record_mappings.lookup (sync_name, source_id)).isSome then
    { db with record_mappings :=
        (updateWhere (sync_name, source_id)
          (fun row => { row with smartsuite_record_id := smartsuite_record_id,
                                 data_hash := data_hash, updated_at := now })
          db.record_mappings) }
  else
    { db with record_mappings := db.record_mappings ++
        [((sync_name, source_id),
          { smartsuite_record_id := smartsuite_record_id, data_hash := data_hash,
            created_at := now, updated_at := now })] }

end StateManager

/-! ## The sync engine (`src/sync_engine.py`) -/

open StateManager

/-- A destination call issued by the engine (the SmartSuite client's
`create_record` / `update_record`, spec §6). -/
inductive DestCall where
  | create (table_id : String) (payload : PyDict)
  | update (table_id : String) (record_id : String) (payload : PyDict)

/-- The destination collaborator, as an oracle: each call either returns
(for create, the `id` of the API's response dict) or raises a transport
fault. -/
structure Destination where
  create_record : String → PyDict → Except String String
  update_record : String → String → PyDict → Except String Unit

/-- Result of reconciling one record: the classification
(`'created'`/`'updated'`/`'skipped'`) or the caught exception, the
destination calls attempted, and the state database after the step. -/
structure RecordOutcome where
  result : Except String String
  calls : List DestCall
  db : StateDB

/-- `SyncEngine._sync_record` (src/sync_engine.py:132-209).  Missing
primary key raises `KeyError` before any call; a conversion error
propagates out of `map_record`; a destination fault aborts the step after
the one attempted call, leaving state untouched. -/
def sync_record (dest : Destination) (cfg : SyncConfig) (db : StateDB) (now : String)
    (source_record : PyDict) : RecordOutcome :=
  match source_record.lookup cfg.primary_key with
  | Option.none => ⟨.error "KeyError: primary key missing", [], db⟩
  | Option.some pkv =>
    let source_id := pyStr pkv
    match cfg.map_record source_record with
    | .error e => ⟨.error e, [], db⟩
    | .ok mapped =>
      let data_hash := calculate_hash mapped
      match get_record_mapping db cfg.name source_id with
      | Option.some existing =>
          if existing.data_hash = data_hash then ⟨.ok "skipped", [], db⟩
          else
            (match dest.update_record cfg.table_id existing.smartsuite_record_id mapped with
             | .error e =>
                 ⟨.error e, [DestCall.update cfg.table_id existing.smartsuite_record_id mapped], db⟩
             | .ok _ =>
                 ⟨.ok "updated",
                  [DestCall.update cfg.table_id existing.smartsuite_record_id mapped],
                  save_record_mapping db cfg.name source_id existing.smartsuite_record_id
                    data_hash now⟩)
      | Option.none =>
          (match dest.create_record cfg.table_id mapped with
           | .error e => ⟨.error e, [DestCall.create cfg.table_id mapped], db⟩
           | .ok smartsuite_id =>
               ⟨.ok "created", [DestCall.create cfg.table_id mapped],
                save_record_mapping db cfg.name source_id smartsuite_id data_hash now⟩)

/-- The per-run counters dictionary of `SyncEngine.sync`. -/
structure SyncStats where
  processed : Nat := 0
  created : Nat := 0
  updated : Nat := 0
  skipped : Nat := 0
  errors : Nat := 0
deriving DecidableEq, Repr

/-- The loop body of `SyncEngine.sync` (src/sync_engine.py:87-102): one
record's outcome folded into the counters; an exception is caught, adds
to `errors` only, and the loop moves on. -/
def sync_step (dest : Destination) (cfg : SyncConfig) (now : String)
    (acc : SyncStats × StateDB × List DestCall × List (Except String String))
    (record : PyDict) : SyncStats × StateDB × List DestCall × List (Except String String) :=
  let o := sync_record dest cfg acc.2.1 now record
  match o.result with
  | .ok r =>
      ({ acc.1 with
          processed := acc.1.processed + 1,
          created := acc.1.created + (if r = "created" then 1 else 0),
          updated := acc.1.updated + (if r = "updated" then 1 else 0),
          skipped := acc.1.skipped + (if r = "skipped" then 1 else 0) },
       o.db, acc.2.2.1 ++ o.calls, acc.2.2.2 ++ [o.result])
  | .error _ =>
      ({ acc.1 with errors := acc.1.errors + 1 }, o.db, acc.2.2.1 ++ o.calls,
       acc.2.2.2 ++ [o.result])

/-- Result of one `SyncEngine.sync` run. -/
structure SyncRunResult where
  stats : SyncStats
  db : StateDB
  calls : List DestCall
  outcomes : List (Except String String)
  run_id : Nat

/-- `SyncEngine.sync` (src/sync_engine.py:40-130), given the rows the
source query returned (fetching itself belongs to the MySQL
collaborator; a fetch fault would take the run-fatal path, which is
outside this model).  An empty fetch completes the run `success` with
zero counters and — as the code is written — without touching
`sync_metadata`; a non-empty fetch runs the per-record loop, then updates
the last-sync boundary and completes the run `success` with the loop's
counters.  All wall-clock reads are modelled by `now`. -/
def syncRun (dest : Destination) (cfg : SyncConfig) (db0 : StateDB)
    (source_records : List PyDict) (now : String) : SyncRunResult :=
  let s := start_sync_run db0 cfg.name now
  if source_records.isEmpty then
    ⟨{}, complete_sync_run s.2 s.1 "success" 0 0 0 0 Option.none now, [], [], s.1⟩
  else
    let L := source_records.foldl (sync_step dest cfg now) ({}, s.2, [], [])
    let db3 := update_last_sync_time L.2.1 cfg.name now now
    let db4 := complete_sync_run db3 s.1 "success" L.1.processed L.1.created
      L.1.updated L.1.skipped Option.none now
    ⟨L.1, db4, L.2.2.1, L.2.2.2, s.1⟩

/-- Status of a run row, by id. -/
def runStatus (db : StateDB) (run_id : Nat) : Option String :=
  (db.sync_runs.find? (fun r => r.id = run_id)).map (fun r => r.status)

/-- The stringified source primary key the engine uses as idempotency
anchor: `str(source_record[config.primary_key])`, when present. -/
def recordKey (cfg : SyncConfig) (r : PyDict) : Option String :=
  (r.lookup cfg.primary_key).map pyStr

/-- The content fingerprint of a record's mapped payload, when mapping
succeeds. -/
def recordHash (cfg : SyncConfig) (r : PyDict) : Option String :=
  match SyncConfig.map_record cfg r with
  | .ok m => Option.some (StateManager.calculate_hash m)
  | .error _ => Option.none

/-- Is a per-record outcome an exception? -/
def isErr (o : Except String String) : Bool :=
  match o with
  | .error _ => true
  | .ok _ => false

/-- A destination oracle that always succeeds. -/
def destOK : Destination :=
  { create_record := fun _ _ => .ok "RID-1", update_record := fun _ _ _ => .ok () }

/-- A destination oracle that always raises a transport fault. -/
def destDown : Destination :=
  { create_record := fun _ _ => .error "HTTP 500", update_record := fun _ _ _ => .error "HTTP 500" }

/-- Minimal configuration: primary key `id`, one mapped field `v → V`
with no declared field type (auto conversion applies). -/
def cfgEx : SyncConfig :=
  { name := "s", primary_key := "id", table_id := "tbl", field_mappings := [("v", "V")] }

/-- Configuration declaring `f` as a `number`-typed destination field. -/
def cfgNum : SyncConfig :=
  { name := "s", primary_key := "id", table_id := "tbl", field_mappings := [("f", "F")],
    field_types := [("f", { type := "number" })] }

/-- Configuration declaring `v` as a `text`-typed destination field. -/
def cfgText : SyncConfig :=
  { name := "s", primary_key := "id", table_id := "tbl", field_mappings := [("v", "V")],
    field_types := [("v", { type := "text" })] }

/-- Two source rows sharing primary-key value `1` but mapping to
different payloads (a dataset a joined or non-keyed query can return). -/
def recsDup : List PyDict :=
  [[("id", PyValue.int 1), ("v", PyValue.str "a")],
   [("id", PyValue.int 1), ("v", PyValue.str "b")]]

/-- Two source rows with distinct primary keys. -/
def recsOK : List PyDict :=
  [[("id", PyValue.int 1), ("v", PyValue.str "a")],
   [("id", PyValue.int 2), ("v", PyValue.str "b")]]

/-- One source row. -/
def rowA : PyDict := [("id", PyValue.int 1), ("v", PyValue.str "a")]

/-- The payload `cfgEx` maps `rowA` to. -/
def payloadA : PyDict := [("V", PyValue.str "a")]

/-- A state holding a mapping for `(s, 1)` whose stored fingerprint
equals `payloadA`'s. -/
def dbSkip : StateManager.StateDB :=
  { record_mappings := [(("s", "1"),
      { smartsuite_record_id := "R9", data_hash := StateManager.calculate_hash payloadA,
        created_at := "t0", updated_at := "t0" })] }

/-- A state holding a mapping for `(s, 1)` with a stale fingerprint. -/
def dbStale : StateManager.StateDB :=
  { record_mappings := [(("s", "1"),
      { smartsuite_record_id := "R9", data_hash := "stale",
        created_at := "t0", updated_at := "t0" })] }

/-- A state with a recorded last-sync boundary for sync `s`. -/
def dbMeta : StateManager.StateDB :=
  { sync_metadata := [("s", { last_sync_time := Option.some "tOld",
                              last_successful_run := Option.some "tOld" })] }

/-- An infinite family of destination payloads with pairwise-distinct
canonical serializations (the value is `n` repetitions of `'a'`). -/
def famC3 (n : Nat) : PyDict :=
  [("k", PyValue.str (String.mk (List.replicate n 'a')))]

/-- The key ordering used by `sort_keys=True`, lifted to serialized pairs. -/
instance : IsTotal (String × String) (fun a b => a.1 ≤ b.1) :=
  ⟨fun a b => le_total a.1 b.1⟩

instance : IsTrans (String × String) (fun a b => a.1 ≤ b.1) :=
  ⟨fun _ _ _ h1 h2 => le_trans h1 h2⟩

/-! ## Association-list lemmas -/

theorem lookup_updateWhere_self {α β : Type} [DecidableEq α] [BEq α] [LawfulBEq α]
    (l : List (α × β)) (k : α) (f : β → β) :
    (updateWhere k f l).lookup k = (l.lookup k).map f := by
  induction l with
  | nil => simp [updateWhere, List.lookup]
  | cons p t ih =>
      by_cases h : p.1 = k
      · subst h
        simp [updateWhere, List.lookup]
      · simp [updateWhere, h, List.lookup, beq_eq_false_iff_ne.mpr (fun hc => h hc.symm), ih]

theorem lookup_updateWhere_ne {α β : Type} [DecidableEq α] [BEq α] [LawfulBEq α]
    (l : List (α × β)) (k k' : α) (f : β → β) (hk : k' ≠ k) :
    (updateWhere k f l).lookup k' = l.lookup k' := by
  induction l with
  | nil => simp [updateWhere]
  | cons p t ih =>
      by_cases h : p.1 = k
      · subst h
        simp [updateWhere, List.lookup, beq_eq_false_iff_ne.mpr hk, ih]
      · by_cases h2 : k' = p.1
        · subst h2
          simp [updateWhere, h, List.lookup]
        · simp [updateWhere, h, List.lookup, beq_eq_false_iff_ne.mpr h2, ih]

theorem lookup_append_single {α β : Type} [DecidableEq α] [BEq α] [LawfulBEq α]
    (l : List (α × β)) (k k' : α) (v : β) :
    (l ++ [(k, v)]).lookup k' =
      match l.lookup k' with
      | Option.some w => Option.some w
      | Option.none => if k' = k then Option.some v else Option.none := by
  induction l with
  | nil =>
      by_cases h : k' = k
      · subst h; simp [List.lookup]
      · simp [List.lookup, h, beq_eq_false_iff_ne.mpr h]
  | cons a t ih =>
      by_cases h : k' = a.1
      · subst h; simp [List.lookup]
      · simp only [List.cons_append, List.lookup, beq_eq_false_iff_ne.mpr h]
        exact ih

/-! ## State-store lemmas -/

namespace StateManager

theorem get_save_self (db : StateDB) (n sid rid h now : String) :
    ∃ row, get_record_mapping (save_record_mapping db n sid rid h now) n sid = Option.some row ∧
      row.data_hash = h ∧ row.smartsuite_record_id = rid := by
  unfold get_record_mapping save_record_mapping
  by_cases hx : (db.record_mappings.lookup (n, sid)).isSome
  · rw [if_pos hx]
    obtain ⟨row, hrow⟩ := Option.isSome_iff_exists.mp hx
    refine ⟨{ row with smartsuite_record_id := rid, data_hash := h, updated_at := now },
      ?_, rfl, rfl⟩
    simp [lookup_updateWhere_self, hrow]
  · rw [if_neg hx]
    rw [Option.not_isSome_iff_eq_none] at hx
    refine ⟨{ smartsuite_record_id := rid, data_hash := h, created_at := now,
              updated_at := now }, ?_, rfl, rfl⟩
    rw [lookup_append_single]
    simp [hx]

theorem get_save_ne (db : StateDB) (n sid rid h now n' sid' : String)
    (hne : (n', sid') ≠ (n, sid)) :
    get_record_mapping (save_record_mapping db n sid rid h now) n' sid' =
      get_record_mapping db n' sid' := by
  unfold get_record_mapping save_record_mapping
  by_cases hx : (db.record_mappings.lookup (n, sid)).isSome
  · rw [if_pos hx]
    exact lookup_updateWhere_ne _ _ _ _ hne
  · rw [if_neg hx]
    rw [lookup_append_single]
    cases hy : db.record_mappings.lookup (n', sid') with
    | none => simp only []; rw [if_neg hne]
    | some w => simp only []

theorem mappings_update_last (db : StateDB) (n t now : String) :
    (update_last_sync_time db n t now).record_mappings = db.record_mappings := by
  unfold update_last_sync_time
  split <;> rfl

theorem mappings_complete (db : StateDB) (i : Nat) (st : String) (a b c d : Nat)
    (e : Option String) (now : String) :
    (complete_sync_run db i st a b c d e now).record_mappings = db.record_mappings := rfl

theorem mappings_start (db : StateDB) (n now : String) :
    ((start_sync_run db n now).2).record_mappings = db.record_mappings := rfl

theorem metadata_complete (db : StateDB) (i : Nat) (st : String) (a b c d : Nat)
    (e : Option String) (now : String) :
    (complete_sync_run db i st a b c d e now).sync_metadata = db.sync_metadata := rfl

theorem metadata_start (db : StateDB) (n now : String) :
    ((start_sync_run db n now).2).sync_metadata = db.sync_metadata := rfl

end StateManager

/-! ## Per-record reconciliation lemmas -/

theorem sync_record_classifies (dest : Destination) (cfg : SyncConfig) (db : StateDB)
    (now : String) (r : PyDict) {c : String}
    (h : (sync_record dest cfg db now r).result = .ok c) :
    c = "created" ∨ c = "updated" ∨ c = "skipped" := by
  unfold sync_record at h
  cases hpk : r.lookup cfg.primary_key with
  | none => rw [hpk] at h; simp at h
  | some pkv =>
    rw [hpk] at h
    simp only at h
    cases hmap : SyncConfig.map_record cfg r with
    | error e => rw [hmap] at h; simp at h
    | ok mapped =>
      rw [hmap] at h
      simp only at h
      cases hex : get_record_mapping db cfg.name (pyStr pkv) with
      | some existing =>
          rw [hex] at h
          simp only at h
          by_cases hsame : existing.data_hash = StateManager.calculate_hash mapped
          · rw [if_pos hsame] at h
            simp at h
            simp [h]
          · rw [if_neg hsame] at h
            cases hup : dest.update_record cfg.table_id existing.smartsuite_record_id mapped with
            | error e2 => rw [hup] at h; simp at h
            | ok u => rw [hup] at h; simp at h; simp [h]
      | none =>
          rw [hex] at h
          simp only at h
          cases hcr : dest.create_record cfg.table_id mapped with
          | error e2 => rw [hcr] at h; simp at h
          | ok rid => rw [hcr] at h; simp at h; simp [h]

theorem sync_record_error_db (dest : Destination) (cfg : SyncConfig) (db : StateDB)
    (now : String) (r : PyDict) {e : String}
    (h : (sync_record dest cfg db now r).result = .error e) :
    (sync_record dest cfg db now r).db = db := by
  unfold sync_record at h ⊢
  cases hpk : r.lookup cfg.primary_key with
  | none => try rfl
  | some pkv =>
    (try rw [hpk] at h); (try rw [hpk])
    dsimp only at h ⊢
    cases hmap : SyncConfig.map_record cfg r with
    | error e2 => (try rw [hmap]); dsimp only
    | ok mapped =>
      (try rw [hmap] at h); (try rw [hmap])
      dsimp only at h ⊢
      cases hex : get_record_mapping db cfg.name (pyStr pkv) with
      | some existing =>
          (try rw [hex] at h); (try rw [hex])
          dsimp only at h ⊢
          by_cases hsame : existing.data_hash = StateManager.calculate_hash mapped
          · rw [if_pos hsame] at h; simp at h
          · rw [if_neg hsame] at h ⊢
            cases hup : dest.update_record cfg.table_id existing.smartsuite_record_id mapped with
            | error e2 => (try rw [hup]); dsimp only
            | ok u => rw [hup] at h; simp at h
      | none =>
          (try rw [hex] at h); (try rw [hex])
          dsimp only at h ⊢
          cases hcr : dest.create_record cfg.table_id mapped with
          | error e2 => (try rw [hcr]); dsimp only
          | ok rid => rw [hcr] at h; simp at h

theorem sync_record_ok_self_mapping (dest : Destination) (cfg : SyncConfig) (db : StateDB)
    (now : String) (r : PyDict) {c : String}
    (h : (sync_record dest cfg db now r).result = .ok c) :
    ∃ k fh row, recordKey cfg r = Option.some k ∧ recordHash cfg r = Option.some fh ∧
      get_record_mapping (sync_record dest cfg db now r).db cfg.name k = Option.some row ∧
      row.data_hash = fh := by
  unfold sync_record at h ⊢
  cases hpk : r.lookup cfg.primary_key with
  | none => (try rw [hpk] at h); simp at h
  | some pkv =>
    (try rw [hpk] at h); (try rw [hpk])
    dsimp only at h ⊢
    cases hmap : SyncConfig.map_record cfg r with
    | error e => (try rw [hmap] at h); simp at h
    | ok mapped =>
      (try rw [hmap] at h); (try rw [hmap])
      dsimp only at h ⊢
      refine ⟨pyStr pkv, StateManager.calculate_hash mapped, ?_⟩
      cases hex : get_record_mapping db cfg.name (pyStr pkv) with
      | some existing =>
          (try rw [hex] at h); (try rw [hex])
          dsimp only at h ⊢
          by_cases hsame : existing.data_hash = StateManager.calculate_hash mapped
          · rw [if_pos hsame] at h ⊢
            exact ⟨existing, by simp [recordKey, hpk], by simp [recordHash, hmap], hex, hsame⟩
          · rw [if_neg hsame] at h ⊢
            cases hup : dest.update_record cfg.table_id existing.smartsuite_record_id mapped with
            | error e => (try rw [hup] at h); simp at h
            | ok u =>
                (try rw [hup] at h); (try rw [hup])
                dsimp only at h ⊢
                obtain ⟨row, hrow, hh, _⟩ :=
                  get_save_self db cfg.name (pyStr pkv) existing.smartsuite_record_id
                    (StateManager.calculate_hash mapped) now
                exact ⟨row, by simp [recordKey, hpk], by simp [recordHash, hmap], hrow, hh⟩
      | none =>
          (try rw [hex] at h); (try rw [hex])
          dsimp only at h ⊢
          cases hcr : dest.create_record cfg.table_id mapped with
          | error e => (try rw [hcr] at h); simp at h
          | ok rid =>
              (try rw [hcr] at h); (try rw [hcr])
              dsimp only at h ⊢
              obtain ⟨row, hrow, hh, _⟩ :=
                get_save_self db cfg.name (pyStr pkv) rid
                  (StateManager.calculate_hash mapped) now
              exact ⟨row, by simp [recordKey, hpk], by simp [recordHash, hmap], hrow, hh⟩

theorem sync_record_other_key (dest : Destination) (cfg : SyncConfig) (db : StateDB)
    (now : String) (r : PyDict) (k' : String) (hk : recordKey cfg r ≠ Option.some k') :
    get_record_mapping (sync_record dest cfg db now r).db cfg.name k' =
      get_record_mapping db cfg.name k' := by
  unfold sync_record
  cases hpk : r.lookup cfg.primary_key with
  | none => rfl
  | some pkv =>
    have hk2 : pyStr pkv ≠ k' := by
      intro hc
      exact hk (by simp [recordKey, hpk, hc])
    dsimp only
    cases hmap : SyncConfig.map_record cfg r with
    | error e => dsimp only
    | ok mapped =>
      dsimp only
      cases hex : get_record_mapping db cfg.name (pyStr pkv) with
      | some existing =>
          dsimp only
          by_cases hsame : existing.data_hash = StateManager.calculate_hash mapped
          · rw [if_pos hsame]
          · rw [if_neg hsame]
            cases hup : dest.update_record cfg.table_id existing.smartsuite_record_id mapped with
            | error e => dsimp only
            | ok u =>
                dsimp only
                exact get_save_ne db cfg.name (pyStr pkv) existing.smartsuite_record_id
                  (StateManager.calculate_hash mapped) now cfg.name k'
                  (by intro hc; exact hk2 (congrArg Prod.snd hc).symm)
      | none =>
          dsimp only
          cases hcr : dest.create_record cfg.table_id mapped with
          | error e => dsimp only
          | ok rid =>
              dsimp only
              exact get_save_ne db cfg.name (pyStr pkv) rid
                (StateManager.calculate_hash mapped) now cfg.name k'
                (by intro hc; exact hk2 (congrArg Prod.snd hc).symm)

theorem sync_record_skip (dest : Destination) (cfg : SyncConfig) (db : StateDB)
    (now : String) (r : PyDict) (k fh : String) (row : StateManager.MappingRow)
    (hk : recordKey cfg r = Option.some k) (hh : recordHash cfg r = Option.some fh)
    (hrow : get_record_mapping db cfg.name k = Option.some row)
    (hmatch : row.data_hash = fh) :
    sync_record dest cfg db now r = ⟨.ok "skipped", [], db⟩ := by
  unfold recordKey at hk
  cases hpk : r.lookup cfg.primary_key with
  | none => rw [hpk] at hk; simp at hk
  | some pkv =>
    rw [hpk] at hk
    simp only [Option.map_some'] at hk
    injection hk with hk
    unfold recordHash at hh
    cases hmap : SyncConfig.map_record cfg r with
    | error e => rw [hmap] at hh; simp at hh
    | ok mapped =>
      rw [hmap] at hh
      injection hh with hh
      unfold sync_record
      rw [hpk]
      dsimp only
      rw [hmap]
      dsimp only
      rw [hk, hrow]
      dsimp only
      rw [if_pos (by rw [hmatch, ← hh])]

/-! ## Loop lemmas for `SyncEngine.sync` -/

theorem sync_step_db (dest : Destination) (cfg : SyncConfig) (now : String)
    (acc : SyncStats × StateDB × List DestCall × List (Except String String))
    (record : PyDict) :
    (sync_step dest cfg now acc record).2.1 = (sync_record dest cfg acc.2.1 now record).db := by
  unfold sync_step
  dsimp only
  cases hres : (sync_record dest cfg acc.2.1 now record).result
  all_goals (try rw [hres]); rfl

theorem sync_step_facts (dest : Destination) (cfg : SyncConfig) (now : String)
    (acc : SyncStats × StateDB × List DestCall × List (Except String String))
    (record : PyDict) :
    (sync_step dest cfg now acc record).1.processed + (sync_step dest cfg now acc record).1.errors
        = acc.1.processed + acc.1.errors + 1 ∧
    (sync_step dest cfg now acc record).2.2.2.length = acc.2.2.2.length + 1 ∧
    (acc.1.processed = acc.1.created + acc.1.updated + acc.1.skipped →
      (sync_step dest cfg now acc record).1.processed =
        (sync_step dest cfg now acc record).1.created +
        (sync_step dest cfg now acc record).1.updated +
        (sync_step dest cfg now acc record).1.skipped) ∧
    acc.1.errors ≤ (sync_step dest cfg now acc record).1.errors := by
  unfold sync_step
  dsimp only
  cases hres : (sync_record dest cfg acc.2.1 now record).result with
  | error e => (try rw [hres]); simp <;> omega
  | ok c =>
      rcases sync_record_classifies dest cfg acc.2.1 now record hres with h | h | h <;>
        subst h <;> (try rw [hres]) <;> simp <;> omega

theorem sync_loop_counts (dest : Destination) (cfg : SyncConfig) (now : String)
    (records : List PyDict) :
    ∀ acc : SyncStats × StateDB × List DestCall × List (Except String String),
      ((records.foldl (sync_step dest cfg now) acc).1.processed +
          (records.foldl (sync_step dest cfg now) acc).1.errors =
        acc.1.processed + acc.1.errors + records.length) ∧
      ((records.foldl (sync_step dest cfg now) acc).2.2.2.length =
        acc.2.2.2.length + records.length) ∧
      (acc.1.processed = acc.1.created + acc.1.updated + acc.1.skipped →
        (records.foldl (sync_step dest cfg now) acc).1.processed =
          (records.foldl (sync_step dest cfg now) acc).1.created +
          (records.foldl (sync_step dest cfg now) acc).1.updated +
          (records.foldl (sync_step dest cfg now) acc).1.skipped) ∧
      acc.1.errors ≤ (records.foldl (sync_step dest cfg now) acc).1.errors := by
  induction records with
  | nil => intro acc; simp
  | cons r rest ih =>
      intro acc
      rw [List.foldl_cons]
      obtain ⟨s1, s2, s3, s4⟩ := sync_step_facts dest cfg now acc r
      obtain ⟨i1, i2, i3, i4⟩ := ih (sync_step dest cfg now acc r)
      refine ⟨?_, ?_, fun hsum => i3 (s3 hsum), le_trans s4 i4⟩
      · simp only [List.length_cons]
        omega
      · simp only [List.length_cons]
        omega

theorem sync_loop_other_keys (dest : Destination) (cfg : SyncConfig) (now : String)
    (records : List PyDict) :
    ∀ (acc : SyncStats × StateDB × List DestCall × List (Except String String)) (k : String),
      (∀ r ∈ records, recordKey cfg r ≠ Option.some k) →
      get_record_mapping (records.foldl (sync_step dest cfg now) acc).2.1 cfg.name k =
        get_record_mapping acc.2.1 cfg.name k := by
  induction records with
  | nil => intro acc k _; rfl
  | cons r rest ih =>
      intro acc k hk
      rw [List.foldl_cons]
      rw [ih (sync_step dest cfg now acc r) k (fun r' hr' => hk r' (List.mem_cons_of_mem r hr'))]
      rw [sync_step_db]
      exact sync_record_other_key dest cfg acc.2.1 now r k (hk r (List.mem_cons_self r rest))

theorem sync_loop_no_error_post (dest : Destination) (cfg : SyncConfig) (now : String)
    (records : List PyDict) :
    ∀ (acc : SyncStats × StateDB × List DestCall × List (Except String String)),
      (records.foldl (sync_step dest cfg now) acc).1.errors = acc.1.errors →
      (records.map (recordKey cfg)).Nodup →
      ∀ r ∈ records, ∃ k fh row, recordKey cfg r = Option.some k ∧
        recordHash cfg r = Option.some fh ∧
        get_record_mapping (records.foldl (sync_step dest cfg now) acc).2.1 cfg.name k =
          Option.some row ∧
        row.data_hash = fh := by
  induction records with
  | nil => intro acc _ _ r hr; simp at hr
  | cons r0 rest ih =>
      intro acc herr hnodup r hr
      rw [List.foldl_cons] at herr ⊢
      cases hres : (sync_record dest cfg acc.2.1 now r0).result with
      | error e =>
          exfalso
          have hstep : (sync_step dest cfg now acc r0).1.errors = acc.1.errors + 1 := by
            unfold sync_step
            dsimp only
            rw [hres]
          have hmono := (sync_loop_counts dest cfg now rest (sync_step dest cfg now acc r0)).2.2.2
          rw [hstep] at hmono
          omega
      | ok c =>
          have hstep : (sync_step dest cfg now acc r0).1.errors = acc.1.errors := by
            unfold sync_step
            dsimp only
            rw [hres]
          rcases List.mem_cons.mp hr with hr0 | hrest
          · subst hr0
            obtain ⟨k, fh, row, hk, hfh, hget, hdh⟩ :=
              sync_record_ok_self_mapping dest cfg acc.2.1 now r hres
            refine ⟨k, fh, row, hk, hfh, ?_, hdh⟩
            have hpres : ∀ r' ∈ rest, recordKey cfg r' ≠ Option.some k := by
              intro r' hr' hc
              have : recordKey cfg r ∈ rest.map (recordKey cfg) := by
                rw [hk, ← hc]
                exact List.mem_map_of_mem (recordKey cfg) hr'
              exact (List.nodup_cons.mp hnodup).1 this
            rw [sync_loop_other_keys dest cfg now rest _ k hpres]
            rw [sync_step_db]
            exact hget
          · exact ih (sync_step dest cfg now acc r0)
              (by rw [herr, hstep]) (List.nodup_cons.mp hnodup).2 r hrest

theorem sync_loop_all_skip (dest : Destination) (cfg : SyncConfig) (now : String)
    (records : List PyDict) :
    ∀ (stats : SyncStats) (db : StateDB) (calls : List DestCall)
      (outcomes : List (Except String String)),
      (∀ r ∈ records, ∃ k fh row, recordKey cfg r = Option.some k ∧
        recordHash cfg r = Option.some fh ∧
        get_record_mapping db cfg.name k = Option.some row ∧ row.data_hash = fh) →
      records.foldl (sync_step dest cfg now) (stats, db, calls, outcomes) =
        ({ stats with processed := stats.processed + records.length,
                      skipped := stats.skipped + records.length },
         db, calls, outcomes ++ records.map (fun _ => Except.ok "skipped")) := by
  induction records with
  | nil => intro stats db calls outcomes _; simp
  | cons r rest ih =>
      intro stats db calls outcomes hall
      obtain ⟨k, fh, row, hk, hfh, hget, hdh⟩ := hall r (List.mem_cons_self r rest)
      have hskip : sync_record dest cfg db now r = ⟨.ok "skipped", [], db⟩ :=
        sync_record_skip dest cfg db now r k fh row hk hfh hget hdh
      have hstep : sync_step dest cfg now (stats, db, calls, outcomes) r =
          ({ stats with processed := stats.processed + 1, skipped := stats.skipped + 1 },
           db, calls, outcomes ++ [Except.ok "skipped"]) := by
        unfold sync_step
        rw [hskip]
        simp
      rw [List.foldl_cons, hstep,
        ih _ db _ _ (fun r' hr' => hall r' (List.mem_cons_of_mem r hr'))]
      simp [SyncStats.mk.injEq]
      constructor
      · omega
      · omega

theorem sync_step_outcomes (dest : Destination) (cfg : SyncConfig) (now : String)
    (acc : SyncStats × StateDB × List DestCall × List (Except String String))
    (record : PyDict) :
    (sync_step dest cfg now acc record).2.2.2 =
      acc.2.2.2 ++ [(sync_record dest cfg acc.2.1 now record).result] := by
  unfold sync_step
  dsimp only
  cases hres : (sync_record dest cfg acc.2.1 now record).result
  all_goals (try rw [hres]); rfl

theorem sync_step_tally (dest : Destination) (cfg : SyncConfig) (now : String)
    (acc : SyncStats × StateDB × List DestCall × List (Except String String))
    (record : PyDict) :
    (sync_step dest cfg now acc record).1.errors =
      acc.1.errors + (if isErr (sync_record dest cfg acc.2.1 now record).result then 1 else 0) ∧
    (sync_step dest cfg now acc record).1.processed =
      acc.1.processed +
        (if isErr (sync_record dest cfg acc.2.1 now record).result then 0 else 1) := by
  unfold sync_step
  dsimp only
  cases hres : (sync_record dest cfg acc.2.1 now record).result
  all_goals (try rw [hres]); simp [isErr]

theorem sync_loop_tally (dest : Destination) (cfg : SyncConfig) (now : String)
    (records : List PyDict) :
    ∀ acc : SyncStats × StateDB × List DestCall × List (Except String String),
      ((records.foldl (sync_step dest cfg now) acc).1.errors + acc.2.2.2.countP isErr =
        acc.1.errors + (records.foldl (sync_step dest cfg now) acc).2.2.2.countP isErr) ∧
      ((records.foldl (sync_step dest cfg now) acc).1.processed +
          acc.2.2.2.countP (fun o => !(isErr o)) =
        acc.1.processed +
          (records.foldl (sync_step dest cfg now) acc).2.2.2.countP (fun o => !(isErr o))) := by
  induction records with
  | nil => intro acc; simp
  | cons r rest ih =>
      intro acc
      rw [List.foldl_cons]
      obtain ⟨i1, i2⟩ := ih (sync_step dest cfg now acc r)
      obtain ⟨t1, t2⟩ := sync_step_tally dest cfg now acc r
      have ho := sync_step_outcomes dest cfg now acc r
      rw [ho] at i1 i2
      simp only [List.countP_append, List.countP_cons, List.countP_nil] at i1 i2
      cases hres : isErr (sync_record dest cfg acc.2.1 now r).result <;>
        rw [hres] at t1 t2 i1 i2 <;> constructor <;> simp_all <;> omega

theorem sync_record_runs (dest : Destination) (cfg : SyncConfig) (db : StateDB)
    (now : String) (r : PyDict) :
    (sync_record dest cfg db now r).db.sync_runs = db.sync_runs := by
  unfold sync_record
  cases hpk : r.lookup cfg.primary_key with
  | none => rfl
  | some pkv =>
    dsimp only
    cases hmap : SyncConfig.map_record cfg r with
    | error e => rfl
    | ok mapped =>
      dsimp only
      cases hex : get_record_mapping db cfg.name (pyStr pkv) with
      | some existing =>
          dsimp only
          by_cases hsame : existing.data_hash = StateManager.calculate_hash mapped
          · rw [if_pos hsame]
          · rw [if_neg hsame]
            cases hup : dest.update_record cfg.table_id existing.smartsuite_record_id mapped with
            | error e => rfl
            | ok u =>
                dsimp only
                unfold save_record_mapping
                split <;> rfl
      | none =>
          dsimp only
          cases hcr : dest.create_record cfg.table_id mapped with
          | error e => rfl
          | ok rid =>
              dsimp only
              unfold save_record_mapping
              split <;> rfl

theorem sync_record_metadata (dest : Destination) (cfg : SyncConfig) (db : StateDB)
    (now : String) (r : PyDict) :
    (sync_record dest cfg db now r).db.sync_metadata = db.sync_metadata := by
  unfold sync_record
  cases hpk : r.lookup cfg.primary_key with
  | none => rfl
  | some pkv =>
    dsimp only
    cases hmap : SyncConfig.map_record cfg r with
    | error e => rfl
    | ok mapped =>
      dsimp only
      cases hex : get_record_mapping db cfg.name (pyStr pkv) with
      | some existing =>
          dsimp only
          by_cases hsame : existing.data_hash = StateManager.calculate_hash mapped
          · rw [if_pos hsame]
          · rw [if_neg hsame]
            cases hup : dest.update_record cfg.table_id existing.smartsuite_record_id mapped with
            | error e => rfl
            | ok u =>
                dsimp only
                unfold save_record_mapping
                split <;> rfl
      | none =>
          dsimp only
          cases hcr : dest.create_record cfg.table_id mapped with
          | error e => rfl
          | ok rid =>
              dsimp only
              unfold save_record_mapping
              split <;> rfl

theorem sync_loop_runs (dest : Destination) (cfg : SyncConfig) (now : String)
    (records : List PyDict) :
    ∀ acc : SyncStats × StateDB × List DestCall × List (Except String String),
      (records.foldl (sync_step dest cfg now) acc).2.1.sync_runs = acc.2.1.sync_runs := by
  induction records with
  | nil => intro acc; rfl
  | cons r rest ih =>
      intro acc
      rw [List.foldl_cons, ih, sync_step_db, sync_record_runs]

theorem runs_update_last (db : StateDB) (n t now : String) :
    (update_last_sync_time db n t now).sync_runs = db.sync_runs := by
  unfold update_last_sync_time
  split <;> rfl

theorem runStatus_complete (db : StateDB) (run_id : Nat) (st : String)
    (a b c d : Nat) (e : Option String) (now : String)
    (hex : ∃ rr ∈ db.sync_runs, rr.id = run_id) :
    runStatus (complete_sync_run db run_id st a b c d e now) run_id = Option.some st := by
  unfold runStatus complete_sync_run
  dsimp only
  obtain ⟨rr, hmem, hid⟩ := hex
  subst hid
  revert hmem
  generalize db.sync_runs = runs
  intro hmem
  induction runs with
  | nil => simp at hmem
  | cons r0 t ih =>
      by_cases h0 : r0.id = rr.id
      · rw [List.map_cons, List.find?_cons_of_pos _ (by simp [h0])]
        simp [h0]
      · rw [List.map_cons, List.find?_cons_of_neg _ (by simp [h0])]
        rcases List.mem_cons.mp hmem with h | h
        · exact absurd (congrArg RunRow.id h.symm) h0
        · exact ih h

/-! ## Claims C9, C7, C8 -/

/-- C9: in every stats dictionary returned by a completed sync run,
`processed = created + updated + skipped`, and a record that raised is
counted only in `errors`, so `processed + errors` equals the number of
rows fetched from the source. -/
theorem C9_counter_consistency (dest : Destination) (cfg : SyncConfig)
    (db0 : StateDB) (records : List PyDict) (now : String) :
    (syncRun dest cfg db0 records now).stats.processed =
        (syncRun dest cfg db0 records now).stats.created +
        (syncRun dest cfg db0 records now).stats.updated +
        (syncRun dest cfg db0 records now).stats.skipped ∧
    (syncRun dest cfg db0 records now).stats.processed +
        (syncRun dest cfg db0 records now).stats.errors = records.length := by
  unfold syncRun
  dsimp only
  by_cases hrec : records.isEmpty
  · rw [if_pos hrec]
    have hnil : records = [] := List.isEmpty_iff.mp hrec
    subst hnil
    simp
  · rw [if_neg hrec]
    dsimp only
    obtain ⟨c1, c2, c3, c4⟩ :=
      sync_loop_counts dest cfg now records ({}, (start_sync_run db0 cfg.name now).2, [], [])
    exact ⟨c3 rfl, by simpa using c1⟩

/-- C7: a per-record exception is caught inside the loop and counted in
`errors`; every fetched row still receives an outcome (no record prevents
the processing of later ones), the run is marked `success`, and the error
tally is visible in the returned counters. -/
theorem C7_fault_isolation (dest : Destination) (cfg : SyncConfig)
    (db0 : StateDB) (records : List PyDict) (now : String) :
    (syncRun dest cfg db0 records now).outcomes.length = records.length ∧
    runStatus (syncRun dest cfg db0 records now).db
        (syncRun dest cfg db0 records now).run_id = Option.some "success" ∧
    (syncRun dest cfg db0 records now).stats.errors =
        (syncRun dest cfg db0 records now).outcomes.countP isErr ∧
    (syncRun dest cfg db0 records now).stats.processed =
        (syncRun dest cfg db0 records now).outcomes.countP (fun o => !(isErr o)) := by
  have hmem : ∃ rr ∈ (start_sync_run db0 cfg.name now).2.sync_runs,
      rr.id = (start_sync_run db0 cfg.name now).1 := by
    refine ⟨{ id := (start_sync_run db0 cfg.name now).1, sync_name := cfg.name,
              started_at := now, status := "running" }, ?_, rfl⟩
    unfold start_sync_run
    dsimp only
    exact List.mem_append_right _ (List.mem_cons_self _ _)
  unfold syncRun
  dsimp only
  by_cases hrec : records.isEmpty
  · rw [if_pos hrec]
    have hnil : records = [] := List.isEmpty_iff.mp hrec
    subst hnil
    exact ⟨rfl, runStatus_complete _ _ _ _ _ _ _ _ _ hmem, rfl, rfl⟩
  · rw [if_neg hrec]
    dsimp only
    obtain ⟨c1, c2, c3, c4⟩ :=
      sync_loop_counts dest cfg now records ({}, (start_sync_run db0 cfg.name now).2, [], [])
    obtain ⟨t1, t2⟩ :=
      sync_loop_tally dest cfg now records ({}, (start_sync_run db0 cfg.name now).2, [], [])
    refine ⟨by simpa using c2, ?_, by simpa using t1, by simpa using t2⟩
    apply runStatus_complete
    rw [runs_update_last, sync_loop_runs]
    exact hmem

/-- C8 (counterexample): on an empty fetch the run completes `success`
with zero counters, but the stored last-sync boundary is left at its old
value instead of being updated before the run is marked `success` — the
empty-fetch branch returns without calling `update_last_sync_time`. -/
theorem C8_counterexample :
    (syncRun destOK cfgEx dbMeta [] "tNew").stats = {} ∧
    runStatus (syncRun destOK cfgEx dbMeta [] "tNew").db
        (syncRun destOK cfgEx dbMeta [] "tNew").run_id = Option.some "success" ∧
    get_last_sync_time (syncRun destOK cfgEx dbMeta [] "tNew").db "s" = Option.some "tOld" ∧
    ¬ get_last_sync_time (syncRun destOK cfgEx dbMeta [] "tNew").db "s" =
        Option.some "tNew" := by
  decide

/-- C8 (amended): when the source query returns an empty sequence the run
terminates with status `success`, all counters zero, no destination
calls and no per-record outcomes — and the last-sync boundary is *not*
updated: the empty-fetch branch leaves `sync_metadata` untouched. -/
theorem C8_empty_fetch (dest : Destination) (cfg : SyncConfig) (db0 : StateDB)
    (now : String) :
    (syncRun dest cfg db0 [] now).stats = {} ∧
    (syncRun dest cfg db0 [] now).calls = [] ∧
    (syncRun dest cfg db0 [] now).outcomes = [] ∧
    runStatus (syncRun dest cfg db0 [] now).db (syncRun dest cfg db0 [] now).run_id =
      Option.some "success" ∧
    (syncRun dest cfg db0 [] now).db.sync_metadata = db0.sync_metadata := by
  have hmem : ∃ rr ∈ (start_sync_run db0 cfg.name now).2.sync_runs,
      rr.id = (start_sync_run db0 cfg.name now).1 := by
    refine ⟨{ id := (start_sync_run db0 cfg.name now).1, sync_name := cfg.name,
              started_at := now, status := "running" }, ?_, rfl⟩
    unfold start_sync_run
    dsimp only
    exact List.mem_append_right _ (List.mem_cons_self _ _)
  unfold syncRun
  dsimp only
  rw [if_pos (show ([] : List PyDict).isEmpty = true from rfl)]
  refine ⟨rfl, rfl, rfl, runStatus_complete _ _ _ _ _ _ _ _ _ hmem, ?_⟩
  rw [metadata_complete, metadata_start]

/-! ## Claim C2 -/

/-- C2: per-record reconciliation transitions.  With the primary key
present and the mapping successful: no stored mapping → exactly one
create call and one mapping upsert, classified `created`; stored mapping
with matching fingerprint → no destination call, no state write,
classified `skipped`; stored mapping with differing fingerprint → exactly
one update call using the stored destination id and one upsert that keeps
that id, classified `updated`. -/
theorem C2_reconciliation_transitions (dest : Destination) (cfg : SyncConfig)
    (db : StateDB) (now : String) (r : PyDict) (pkv : PyValue) (payload : PyDict)
    (hpk : r.lookup cfg.primary_key = Option.some pkv)
    (hmap : SyncConfig.map_record cfg r = .ok payload) :
    (get_record_mapping db cfg.name (pyStr pkv) = Option.none →
      ∀ rid, dest.create_record cfg.table_id payload = .ok rid →
        sync_record dest cfg db now r =
          ⟨.ok "created", [DestCall.create cfg.table_id payload],
           save_record_mapping db cfg.name (pyStr pkv) rid
             (StateManager.calculate_hash payload) now⟩) ∧
    (∀ row, get_record_mapping db cfg.name (pyStr pkv) = Option.some row →
      row.data_hash = StateManager.calculate_hash payload →
        sync_record dest cfg db now r = ⟨.ok "skipped", [], db⟩) ∧
    (∀ row, get_record_mapping db cfg.name (pyStr pkv) = Option.some row →
      row.data_hash ≠ StateManager.calculate_hash payload →
      dest.update_record cfg.table_id row.smartsuite_record_id payload = .ok () →
        sync_record dest cfg db now r =
          ⟨.ok "updated", [DestCall.update cfg.table_id row.smartsuite_record_id payload],
           save_record_mapping db cfg.name (pyStr pkv) row.smartsuite_record_id
             (StateManager.calculate_hash payload) now⟩) := by
  refine ⟨?_, ?_, ?_⟩
  · intro hnone rid hcr
    unfold sync_record
    rw [hpk]
    dsimp only
    rw [hmap]
    dsimp only
    rw [hnone]
    dsimp only
    rw [hcr]
  · intro row hrow hsame
    unfold sync_record
    rw [hpk]
    dsimp only
    rw [hmap]
    dsimp only
    rw [hrow]
    dsimp only
    rw [if_pos hsame]
  · intro row hrow hdiff hup
    unfold sync_record
    rw [hpk]
    dsimp only
    rw [hmap]
    dsimp only
    rw [hrow]
    dsimp only
    rw [if_neg hdiff, hup]

/-- C2 witness: at the concrete configuration `cfgEx`, row `rowA` and an
always-succeeding destination, the three transitions are exercised
against the empty state (create), `dbSkip` (skip) and `dbStale`
(update). -/
theorem C2_reconciliation_transitions_witness :
    sync_record destOK cfgEx {} "t1" rowA =
      ⟨.ok "created", [DestCall.create "tbl" payloadA],
       save_record_mapping {} "s" "1" "RID-1" (StateManager.calculate_hash payloadA) "t1"⟩ ∧
    sync_record destOK cfgEx dbSkip "t1" rowA = ⟨.ok "skipped", [], dbSkip⟩ ∧
    sync_record destOK cfgEx dbStale "t1" rowA =
      ⟨.ok "updated", [DestCall.update "tbl" "R9" payloadA],
       save_record_mapping dbStale "s" "1" "R9" (StateManager.calculate_hash payloadA) "t1"⟩ := by
  obtain ⟨h1, h2, h3⟩ :=
    C2_reconciliation_transitions destOK cfgEx {} "t1" rowA (PyValue.int 1) payloadA
      (by with_unfolding_all rfl) (by with_unfolding_all rfl)
  obtain ⟨g1, g2, g3⟩ :=
    C2_reconciliation_transitions destOK cfgEx dbSkip "t1" rowA (PyValue.int 1) payloadA
      (by with_unfolding_all rfl) (by with_unfolding_all rfl)
  obtain ⟨f1, f2, f3⟩ :=
    C2_reconciliation_transitions destOK cfgEx dbStale "t1" rowA (PyValue.int 1) payloadA
      (by with_unfolding_all rfl) (by with_unfolding_all rfl)
  refine ⟨?_, ?_, ?_⟩
  · exact (h1 (by with_unfolding_all rfl) "RID-1" (by with_unfolding_all rfl)).trans
      (by with_unfolding_all rfl)
  · exact (g2 { smartsuite_record_id := "R9",
                data_hash := StateManager.calculate_hash payloadA,
                created_at := "t0", updated_at := "t0" }
      (by with_unfolding_all rfl) (by with_unfolding_all rfl)).trans rfl
  · exact (f3 { smartsuite_record_id := "R9", data_hash := "stale",
                created_at := "t0", updated_at := "t0" }
      (by with_unfolding_all rfl) (by decide) (by with_unfolding_all rfl)).trans
      (by with_unfolding_all rfl)

/-! ## Claim C1 -/

theorem syncRun_nonempty (dest : Destination) (cfg : SyncConfig) (db0 : StateDB)
    (records : List PyDict) (now : String) (h : records.isEmpty = false) :
    syncRun dest cfg db0 records now =
      ⟨(records.foldl (sync_step dest cfg now)
          ({}, (start_sync_run db0 cfg.name now).2, [], [])).1,
       complete_sync_run
         (update_last_sync_time
           (records.foldl (sync_step dest cfg now)
             ({}, (start_sync_run db0 cfg.name now).2, [], [])).2.1
           cfg.name now now)
         (start_sync_run db0 cfg.name now).1 "success"
         (records.foldl (sync_step dest cfg now)
           ({}, (start_sync_run db0 cfg.name now).2, [], [])).1.processed
         (records.foldl (sync_step dest cfg now)
           ({}, (start_sync_run db0 cfg.name now).2, [], [])).1.created
         (records.foldl (sync_step dest cfg now)
           ({}, (start_sync_run db0 cfg.name now).2, [], [])).1.updated
         (records.foldl (sync_step dest cfg now)
           ({}, (start_sync_run db0 cfg.name now).2, [], [])).1.skipped
         Option.none now,
       (records.foldl (sync_step dest cfg now)
         ({}, (start_sync_run db0 cfg.name now).2, [], [])).2.2.1,
       (records.foldl (sync_step dest cfg now)
         ({}, (start_sync_run db0 cfg.name now).2, [], [])).2.2.2,
       (start_sync_run db0 cfg.name now).1⟩ := by
  unfold syncRun
  rw [if_neg (by simp [h])]


theorem get_record_congr (db1 db2 : StateDB) (n sid : String)
    (h : db1.record_mappings = db2.record_mappings) :
    get_record_mapping db1 n sid = get_record_mapping db2 n sid := by
  unfold get_record_mapping
  rw [h]

/-- C1 (counterexample): the claim quantifies over *every* source
dataset.  With two rows sharing primary-key value `1` but mapping to
different payloads, the first run succeeds with zero errors, yet the
second run over the same unchanged rows issues two destination update
calls and classifies no record as skipped. -/
theorem C1_counterexample :
    (syncRun destOK cfgEx {} recsDup "t1").stats.errors = 0 ∧
    (syncRun destOK cfgEx (syncRun destOK cfgEx {} recsDup "t1").db recsDup "t2").stats.updated
      = 2 ∧
    (syncRun destOK cfgEx (syncRun destOK cfgEx {} recsDup "t1").db recsDup "t2").stats.skipped
      = 0 ∧
    (syncRun destOK cfgEx (syncRun destOK cfgEx {} recsDup "t1").db recsDup "t2").calls.length
      = 2 := by
  decide

/-- C1 (amended): idempotence of reconciliation for datasets whose rows
have pairwise-distinct primary-key values (the uniqueness a primary key
provides).  After a first run in which every record succeeded, a second
run over the same unchanged rows issues zero destination calls of any
kind, writes nothing, and classifies every record `skipped`. -/
theorem C1_idempotence (dest1 dest2 : Destination) (cfg : SyncConfig) (db0 : StateDB)
    (records : List PyDict) (now1 now2 : String)
    (hkeys : (records.map (recordKey cfg)).Nodup)
    (herr : (syncRun dest1 cfg db0 records now1).stats.errors = 0) :
    (syncRun dest2 cfg (syncRun dest1 cfg db0 records now1).db records now2).stats.created
      = 0 ∧
    (syncRun dest2 cfg (syncRun dest1 cfg db0 records now1).db records now2).stats.updated
      = 0 ∧
    (syncRun dest2 cfg (syncRun dest1 cfg db0 records now1).db records now2).stats.errors
      = 0 ∧
    (syncRun dest2 cfg (syncRun dest1 cfg db0 records now1).db records now2).stats.skipped
      = records.length ∧
    (syncRun dest2 cfg (syncRun dest1 cfg db0 records now1).db records now2).calls = [] ∧
    (syncRun dest2 cfg (syncRun dest1 cfg db0 records now1).db records now2).outcomes
      = records.map (fun _ => Except.ok "skipped") := by
  by_cases hrec : records.isEmpty
  · have hnil : records = [] := List.isEmpty_iff.mp hrec
    subst hnil
    unfold syncRun
    simp
  · have hpost := sync_loop_no_error_post dest1 cfg now1 records
      ({}, (start_sync_run db0 cfg.name now1).2, [], [])
      (by
        have : (syncRun dest1 cfg db0 records now1).stats =
            (records.foldl (sync_step dest1 cfg now1)
              ({}, (start_sync_run db0 cfg.name now1).2, [], [])).1 := by
          unfold syncRun
          rw [if_neg hrec]
        rw [this] at herr
        exact herr)
      hkeys
    have hmapsame : (syncRun dest1 cfg db0 records now1).db.record_mappings =
        (records.foldl (sync_step dest1 cfg now1)
          ({}, (start_sync_run db0 cfg.name now1).2, [], [])).2.1.record_mappings := by
      unfold syncRun
      rw [if_neg hrec]
      dsimp only
      rw [mappings_complete, mappings_update_last]
    have hall : ∀ r ∈ records, ∃ k fh row, recordKey cfg r = Option.some k ∧
        recordHash cfg r = Option.some fh ∧
        get_record_mapping
          (start_sync_run (syncRun dest1 cfg db0 records now1).db cfg.name now2).2
          cfg.name k = Option.some row ∧ row.data_hash = fh := by
      intro r hr
      obtain ⟨k, fh, row, hk, hfh, hget, hdh⟩ := hpost r hr
      refine ⟨k, fh, row, hk, hfh, ?_, hdh⟩
      rw [get_record_congr _ (syncRun dest1 cfg db0 records now1).db _ _
        (mappings_start _ _ _)]
      rw [get_record_congr _ _ _ _ hmapsame]
      exact hget
    have hskip := sync_loop_all_skip dest2 cfg now2 records {}
      (start_sync_run (syncRun dest1 cfg db0 records now1).db cfg.name now2).2 [] [] hall
    rw [syncRun_nonempty dest2 cfg (syncRun dest1 cfg db0 records now1).db records now2
      (Bool.not_eq_true _ ▸ hrec)]
    dsimp only
    rw [hskip]
    simp

/-- C1 witness: the amended idempotence theorem applied to a concrete
two-row dataset with distinct keys — the second run skips both rows and
makes no destination call. -/
theorem C1_idempotence_witness :
    (recsOK.map (recordKey cfgEx)).Nodup ∧
    (syncRun destOK cfgEx {} recsOK "t1").stats.errors = 0 ∧
    (syncRun destOK cfgEx (syncRun destOK cfgEx {} recsOK "t1").db recsOK "t2").stats.skipped
      = 2 ∧
    (syncRun destOK cfgEx (syncRun destOK cfgEx {} recsOK "t1").db recsOK "t2").stats.updated
      = 0 ∧
    (syncRun destOK cfgEx (syncRun destOK cfgEx {} recsOK "t1").db recsOK "t2").calls = [] := by
  have hk : (recsOK.map (recordKey cfgEx)).Nodup := by decide
  have he : (syncRun destOK cfgEx {} recsOK "t1").stats.errors = 0 := by decide
  obtain ⟨c1, c2, c3, c4, c5, c6⟩ := C1_idempotence destOK destOK cfgEx {} recsOK "t1" "t2" hk he
  exact ⟨hk, he, by rw [c4]; decide, c2, c5⟩

/-! ## Claim C10 -/

/-- C10: the yes/no converter maps a string to true iff its lowercased
form is one of `true`, `yes`, `1`, `t`, `y`, `on`; a boolean passes
through; null yields false; every other value is coerced by Python
truthiness. -/
theorem C10_yesno_coercion (s : String) (b : Bool) (v : PyValue)
    (hs : ∀ t, v ≠ PyValue.str t) (hb : ∀ t, v ≠ PyValue.bool t)
    (hn : v ≠ PyValue.none) :
    SmartSuiteFieldConverter.to_yesno (PyValue.str s) =
      PyValue.bool (["true", "yes", "1", "t", "y", "on"].contains (strLower s)) ∧
    SmartSuiteFieldConverter.to_yesno (PyValue.bool b) = PyValue.bool b ∧
    SmartSuiteFieldConverter.to_yesno PyValue.none = PyValue.bool false ∧
    SmartSuiteFieldConverter.to_yesno v = PyValue.bool (pyTruthy v) := by
  refine ⟨rfl, rfl, rfl, ?_⟩
  cases v <;> first
    | rfl
    | exact absurd rfl (hs _)
    | exact absurd rfl (hb _)
    | exact absurd rfl hn

/-- C10 witness: concrete inputs for each arm — `"Yes"` lowercases into
the truthy set, booleans and null pass through the dedicated branches,
and a nonzero integer is truthy. -/
theorem C10_yesno_coercion_witness :
    SmartSuiteFieldConverter.to_yesno (PyValue.str "Yes") = PyValue.bool true ∧
    SmartSuiteFieldConverter.to_yesno (PyValue.bool false) = PyValue.bool false ∧
    SmartSuiteFieldConverter.to_yesno PyValue.none = PyValue.bool false ∧
    SmartSuiteFieldConverter.to_yesno (PyValue.int 5) = PyValue.bool true := by
  obtain ⟨h1, h2, h3, h4⟩ := C10_yesno_coercion "Yes" false (PyValue.int 5)
    (fun t h => PyValue.noConfusion h) (fun t h => PyValue.noConfusion h)
    (fun h => PyValue.noConfusion h)
  exact ⟨h1.trans (by with_unfolding_all rfl), h2, h3,
    h4.trans (by with_unfolding_all rfl)⟩

/-! ## Claim C6 -/

/-- C6: date conversion policy.  A `datetime` input always sets
`include_time` true regardless of the supplied option; a `date` input is
promoted to the ISO timestamp at midnight with the caller's flag (whose
default is false); a string input is parsed as ISO-8601 after replacing
`'Z'` with `'+00:00'`, and on parse failure is passed through unmodified
as the date value — the converter is total, so it never raises on a
malformed date string. -/
theorem C6_date_policy (y mo d h mi s : Nat) (off : Option String) (t : String)
    (opts : SmartSuiteFieldConverter.ConvertOptions) :
    SmartSuiteFieldConverter.to_date (PyValue.datetime y mo d h mi s off) opts =
      PyValue.dict [("date", PyValue.str (datetimeIso y mo d h mi s off)),
                    ("include_time", PyValue.bool true)] ∧
    SmartSuiteFieldConverter.to_date (PyValue.date y mo d) opts =
      PyValue.dict [("date", PyValue.str (datetimeIso y mo d 0 0 0 Option.none)),
                    ("include_time", PyValue.bool opts.include_time)] ∧
    ({} : SmartSuiteFieldConverter.ConvertOptions).include_time = false ∧
    (match fromisoformat (replaceZ t) with
     | Option.some (PyValue.datetime py pmo pd ph pmi ps poff) =>
         SmartSuiteFieldConverter.to_date (PyValue.str t) opts =
           PyValue.dict [("date", PyValue.str (datetimeIso py pmo pd ph pmi ps poff)),
                         ("include_time", PyValue.bool opts.include_time)]
     | _ =>
         SmartSuiteFieldConverter.to_date (PyValue.str t) opts =
           PyValue.dict [("date", PyValue.str t),
                         ("include_time", PyValue.bool opts.include_time)]) := by
  refine ⟨rfl, rfl, rfl, ?_⟩
  unfold SmartSuiteFieldConverter.to_date
  dsimp only
  cases hp : fromisoformat (replaceZ t) with
  | none => (try rw [hp]); rfl
  | some v => cases v <;> ((try rw [hp]); rfl)

/-! ## Claim C5 -/

/-- C5 (counterexample): a mapped source field with *no* declared field
type whose value is null is emitted as a literal null — `_auto_convert`
returns `None` unchanged — not as the null-policy empty string. -/
theorem C5_counterexample :
    SyncConfig.map_record cfgEx [("id", PyValue.int 1), ("v", PyValue.none)] =
      .ok [("V", PyValue.none)] ∧
    PyValue.none ≠ PyValue.str "" := by
  exact ⟨by with_unfolding_all rfl, fun h => PyValue.noConfusion h⟩

/-- C5 (amended): for a source field that *has* a declared field type, a
null value is rendered through the null policy of §4.1 — empty array for
the list-typed field types, `false` for boolean, the string `"0"` for
numeric types, an object with a null date for date fields, empty string
otherwise — never a literal null.  (Fields without a declared type pass
null through unchanged, per the counterexample.) -/
theorem C5_null_rendering (cfg : SyncConfig) (sf : String) (fc : FieldTypeConfig)
    (hft : cfg.field_types.lookup sf = Option.some fc) :
    SyncConfig.transform_value cfg sf PyValue.none =
      .ok (SmartSuiteFieldConverter.null_value_for_type fc.type) ∧
    (∀ ft : String,
      SmartSuiteFieldConverter.null_value_for_type ft ≠ PyValue.none ∧
      (["multipleselectfield", "emailfield", "phonefield", "linkfield",
        "linkedrecordfield", "memberfield"].contains (strLower ft) = true →
        SmartSuiteFieldConverter.null_value_for_type ft = PyValue.list []) ∧
      (strLower ft = "yesno" →
        SmartSuiteFieldConverter.null_value_for_type ft = PyValue.bool false) ∧
      (["number", "currency", "percent"].contains (strLower ft) = true →
        SmartSuiteFieldConverter.null_value_for_type ft = PyValue.str "0") ∧
      (strLower ft = "date" →
        SmartSuiteFieldConverter.null_value_for_type ft =
          PyValue.dict [("date", PyValue.none), ("include_time", PyValue.bool false)]) ∧
      (["multipleselectfield", "emailfield", "phonefield", "linkfield",
        "linkedrecordfield", "memberfield", "yesno", "number", "currency",
        "percent", "date"].contains (strLower ft) = false →
        SmartSuiteFieldConverter.null_value_for_type ft = PyValue.str "")) := by
  constructor
  · unfold SyncConfig.transform_value
    rw [hft]
    rfl
  · intro ft
    unfold SmartSuiteFieldConverter.null_value_for_type
    dsimp only
    split_ifs with h1 h2 h3 h4 <;>
      refine ⟨by intro hc; exact PyValue.noConfusion hc, ?_, ?_, ?_, ?_, ?_⟩ <;> intro hc
    all_goals try simp_all
    all_goals (rcases h1 with h1 | h1 | h1 | h1 | h1 | h1 <;>
      rcases hc with hc | hc | hc <;> simp_all)

/-- C5 witness: with `v` declared `text` in `cfgText`, a null value
renders as the empty string — the text type's null-equivalent — and the
null policy facts are instantiated at the `date` type. -/
theorem C5_null_rendering_witness :
    SyncConfig.transform_value cfgText "v" PyValue.none = .ok (PyValue.str "") ∧
    SmartSuiteFieldConverter.null_value_for_type "date" =
      PyValue.dict [("date", PyValue.none), ("include_time", PyValue.bool false)] := by
  obtain ⟨h1, h2⟩ := C5_null_rendering cfgText "v" { type := "text" } (by with_unfolding_all rfl)
  exact ⟨h1.trans (by with_unfolding_all rfl), (h2 "date").2.2.2.2.1 (by decide)⟩

/-! ## Claim C4 -/

/-- C4 (counterexample): mapping *can* raise.  With `f` declared as a
`number` field, a non-numeric string makes `to_number`'s
`str(float(value))` raise `ValueError`, which propagates out of
`map_record`. -/
theorem C4_counterexample :
    SyncConfig.map_record cfgNum [("id", PyValue.int 1), ("f", PyValue.str "abc")] =
      .error "float() conversion failed" := by
  with_unfolding_all rfl

theorem convert_total (v : PyValue) (ft : String)
    (opts : SmartSuiteFieldConverter.ConvertOptions)
    (hnum : ["number", "currency", "percent"].contains (strLower ft) = true →
      (pyFloat? v).isSome ∨ v = PyValue.none) :
    ∃ w, SmartSuiteFieldConverter.convert v ft opts = .ok w := by
  cases v
  case none => exact ⟨_, rfl⟩
  all_goals (
    unfold SmartSuiteFieldConverter.convert
    dsimp only
    split
    all_goals try exact ⟨_, rfl⟩
    all_goals (
      (try unfold SmartSuiteFieldConverter.to_currency)
      (try unfold SmartSuiteFieldConverter.to_percent)
      unfold SmartSuiteFieldConverter.to_number
      dsimp only
      rename_i heq
      rcases hnum (by rw [heq]; decide) with hsome | hnone
      · obtain ⟨fv, hfv⟩ := Option.isSome_iff_exists.mp hsome
        rw [hfv]
        exact ⟨_, rfl⟩
      · exact absurd hnone (by intro hc; exact PyValue.noConfusion hc)))

theorem auto_convert_total (v : PyValue)
    (hb : ∀ bs, v = PyValue.bytes bs → (utf8Decode bs).isSome) :
    ∃ w, SyncConfig.auto_convert v = .ok w := by
  cases v
  case bytes bs =>
    obtain ⟨s, hs⟩ := Option.isSome_iff_exists.mp (hb bs rfl)
    refine ⟨PyValue.str s, ?_⟩
    unfold SyncConfig.auto_convert
    dsimp only
    rw [hs]
  all_goals exact ⟨_, rfl⟩

theorem legacy_transform_total (tr : TransformConfig) (v : PyValue)
    (hb : ∀ bs, v = PyValue.bytes bs → (utf8Decode bs).isSome) :
    ∃ w, SyncConfig.legacy_transform tr v = .ok w := by
  unfold SyncConfig.legacy_transform
  split
  · cases hn : SmartSuiteFieldConverter.to_number v with
    | ok w =>
        refine ⟨w, ?_⟩
        (try rw [hn])
        dsimp only
    | error e =>
        obtain ⟨w, hw⟩ := auto_convert_total v hb
        refine ⟨w, ?_⟩
        (try rw [hn])
        dsimp only
        exact hw
  · exact ⟨_, rfl⟩
  · exact ⟨_, rfl⟩
  · exact auto_convert_total v hb

theorem transform_value_total (cfg : SyncConfig) (sf : String) (v : PyValue)
    (hnum : ∀ fc, cfg.field_types.lookup sf = Option.some fc →
      ["number", "currency", "percent"].contains (strLower fc.type) = true →
      (pyFloat? v).isSome ∨ v = PyValue.none)
    (hb : ∀ bs, v = PyValue.bytes bs → (utf8Decode bs).isSome) :
    ∃ w, SyncConfig.transform_value cfg sf v = .ok w := by
  unfold SyncConfig.transform_value
  cases hft : cfg.field_types.lookup sf with
  | some fc => exact convert_total v fc.type _ (hnum fc hft)
  | none =>
      cases htr : cfg.transformations.lookup sf with
      | some tr => exact legacy_transform_total tr v hb
      | none => exact auto_convert_total v hb

/-- C4 (amended): `map_record` never raises *provided* every value
converted through a numeric-typed rule (`number`/`currency`/`percent`)
is `float()`-convertible or null, and every `bytes` value in the record
is valid UTF-8; a null value never raises (it renders as the field
type's null-equivalent).  Outside those provisos mapping can raise, per
the counterexample. -/
theorem C4_map_record_total (cfg : SyncConfig) (r : PyDict)
    (hnum : ∀ sf v fc, r.lookup sf = Option.some v →
      cfg.field_types.lookup sf = Option.some fc →
      ["number", "currency", "percent"].contains (strLower fc.type) = true →
      (pyFloat? v).isSome ∨ v = PyValue.none)
    (hb : ∀ sf bs, r.lookup sf = Option.some (PyValue.bytes bs) →
      (utf8Decode bs).isSome) :
    ∃ mapped, SyncConfig.map_record cfg r = .ok mapped := by
  unfold SyncConfig.map_record
  generalize ([] : PyDict) = acc
  induction cfg.field_mappings generalizing acc with
  | nil => exact ⟨acc, rfl⟩
  | cons p rest ih =>
      unfold SyncConfig.map_record_go
      cases hlk : r.lookup p.1 with
      | none => exact ih _
      | some v =>
          obtain ⟨w, hw⟩ := transform_value_total cfg p.1 v
            (fun fc hft hn => hnum p.1 v fc hlk hft hn)
            (fun bs hbs => hb p.1 bs (hbs ▸ hlk))
          dsimp only
          rw [hw]
          exact ih _

/-- C4 witness: the amended totality theorem applied to `cfgNum` and a
record whose number-typed field holds a numeric string. -/
theorem C4_map_record_total_witness :
    ∃ mapped, SyncConfig.map_record cfgNum [("id", PyValue.int 1), ("f", PyValue.str "1.5")]
      = .ok mapped := by
  apply C4_map_record_total
  · intro sf v fc hlk hft hn
    left
    have hsf : sf = "f" ∧ v = PyValue.str "1.5" ∨ sf = "id" ∧ v = PyValue.int 1 := by
      by_cases h1 : sf = "id"
      · subst h1
        simp [List.lookup] at hlk
        exact Or.inr ⟨rfl, hlk.symm⟩
      · by_cases h2 : sf = "f"
        · subst h2
          simp [List.lookup, beq_eq_false_iff_ne.mpr h1] at hft hlk
          exact Or.inl ⟨rfl, hlk.symm⟩
        · simp [List.lookup, beq_eq_false_iff_ne.mpr h1, beq_eq_false_iff_ne.mpr h2] at hlk
    rcases hsf with ⟨hs, hv⟩ | ⟨hs, hv⟩
    · subst hv
      decide
    · subst hv
      decide
  · intro sf bs hlk
    by_cases h1 : sf = "id"
    · subst h1
      simp [List.lookup] at hlk
    · by_cases h2 : sf = "f"
      · subst h2
        simp [List.lookup, beq_eq_false_iff_ne.mpr h1] at hlk
      · simp [List.lookup, beq_eq_false_iff_ne.mpr h1, beq_eq_false_iff_ne.mpr h2] at hlk

/-! ## Claim C3: digest arithmetic -/

theorem compress_shape (hs block : List Nat) :
    (SHA256.compress hs block).length = 8 ∧ ∀ w ∈ SHA256.compress hs block, w < SHA256.M32 := by
  unfold SHA256.compress
  dsimp only
  refine ⟨rfl, ?_⟩
  intro w hw
  simp only [List.mem_cons, List.not_mem_nil, or_false] at hw
  rcases hw with h | h | h | h | h | h | h | h <;> subst h <;>
    exact Nat.mod_lt _ (by decide)

theorem sha256Words_shape (msg : List Nat) :
    (SHA256.sha256Words msg).length = 8 ∧ ∀ w ∈ SHA256.sha256Words msg, w < SHA256.M32 := by
  unfold SHA256.sha256Words
  have hgen : ∀ (bs : List (List Nat)) (hs : List Nat), hs.length = 8 →
      (∀ w ∈ hs, w < SHA256.M32) →
      (bs.foldl SHA256.compress hs).length = 8 ∧
        ∀ w ∈ bs.foldl SHA256.compress hs, w < SHA256.M32 := by
    intro bs
    induction bs with
    | nil => intro hs h1 h2; exact ⟨h1, h2⟩
    | cons b t ih =>
        intro hs h1 h2
        rw [List.foldl_cons]
        exact ih _ (compress_shape hs b).1 (compress_shape hs b).2
  exact hgen _ SHA256.H0 rfl (by decide)

theorem foldl_base_shift (b : Nat) (ws : List Nat) :
    ∀ acc, ws.foldl (fun a w => a * b + w) acc =
      acc * b ^ ws.length + ws.foldl (fun a w => a * b + w) 0 := by
  induction ws with
  | nil => intro acc; simp
  | cons w t ih =>
      intro acc
      rw [List.foldl_cons, List.foldl_cons, ih (acc * b + w), ih (0 * b + w)]
      simp only [List.length_cons, pow_succ, Nat.zero_mul, Nat.zero_add]
      ring

theorem foldl_base_lt (b : Nat) (hb : 0 < b) (ws : List Nat) (hw : ∀ w ∈ ws, w < b) :
    ws.foldl (fun a w => a * b + w) 0 < b ^ ws.length := by
  induction ws with
  | nil => simpa using Nat.pos_pow_of_pos 0 hb
  | cons w t ih =>
      rw [List.foldl_cons, foldl_base_shift]
      have hV := ih (fun x hx => hw x (List.mem_cons_of_mem w hx))
      have hwb : w + 1 ≤ b := Nat.succ_le_of_lt (hw w (List.mem_cons_self w t))
      calc (0 * b + w) * b ^ t.length + t.foldl (fun a w => a * b + w) 0
          < (0 * b + w) * b ^ t.length + b ^ t.length := Nat.add_lt_add_left hV _
        _ = (w + 1) * b ^ t.length := by ring
        _ ≤ b * b ^ t.length := Nat.mul_le_mul_right _ hwb
        _ = b ^ (t.length + 1) := by ring
        _ = b ^ (w :: t).length := by rw [List.length_cons]

theorem base_head_eq (B w1 w2 V1 V2 : Nat) (h1 : V1 < B) (h2 : V2 < B)
    (he : w1 * B + V1 = w2 * B + V2) : w1 = w2 ∧ V1 = V2 := by
  have hkey : w1 = w2 := by
    rcases Nat.lt_trichotomy w1 w2 with h | h | h
    · exfalso
      have : w1 * B + V1 < w2 * B + V2 :=
        calc w1 * B + V1 < w1 * B + B := Nat.add_lt_add_left h1 _
          _ = (w1 + 1) * B := by ring
          _ ≤ w2 * B := Nat.mul_le_mul_right _ (Nat.succ_le_of_lt h)
          _ ≤ w2 * B + V2 := Nat.le_add_right _ _
      exact absurd he (Nat.ne_of_lt this)
    · exact h
    · exfalso
      have : w2 * B + V2 < w1 * B + V1 :=
        calc w2 * B + V2 < w2 * B + B := Nat.add_lt_add_left h2 _
          _ = (w2 + 1) * B := by ring
          _ ≤ w1 * B := Nat.mul_le_mul_right _ (Nat.succ_le_of_lt h)
          _ ≤ w1 * B + V1 := Nat.le_add_right _ _
      exact absurd he.symm (Nat.ne_of_lt this)
  subst hkey
  exact ⟨rfl, by omega⟩

theorem foldl_base_inj (b : Nat) (hb : 0 < b) :
    ∀ ws1 ws2 : List Nat, ws1.length = ws2.length →
      (∀ w ∈ ws1, w < b) → (∀ w ∈ ws2, w < b) →
      ws1.foldl (fun a w => a * b + w) 0 = ws2.foldl (fun a w => a * b + w) 0 →
      ws1 = ws2 := by
  intro ws1
  induction ws1 with
  | nil =>
      intro ws2 hlen _ _ _
      cases ws2 with
      | nil => rfl
      | cons w2 t2 => simp at hlen
  | cons w1 t1 ih =>
      intro ws2 hlen hb1 hb2 heq
      cases ws2 with
      | nil => simp at hlen
      | cons w2 t2 =>
          have hlen2 : t1.length = t2.length := by simpa using hlen
          rw [List.foldl_cons, List.foldl_cons, foldl_base_shift b t1, foldl_base_shift b t2]
            at heq
          rw [hlen2] at heq
          have hV1 := foldl_base_lt b hb t1 (fun x hx => hb1 x (List.mem_cons_of_mem w1 hx))
          have hV2 := foldl_base_lt b hb t2 (fun x hx => hb2 x (List.mem_cons_of_mem w2 hx))
          rw [hlen2] at hV1
          have hhead := base_head_eq (b ^ t2.length) (0 * b + w1) (0 * b + w2) _ _ hV1 hV2 heq
          have hw : w1 = w2 := by
            have := hhead.1
            omega
          subst hw
          rw [ih t2 hlen2 (fun x hx => hb1 x (List.mem_cons_of_mem w1 hx))
            (fun x hx => hb2 x (List.mem_cons_of_mem w1 hx)) hhead.2]

theorem sha256Nat_lt (msg : List Nat) : SHA256.sha256Nat msg < SHA256.M32 ^ 8 := by
  unfold SHA256.sha256Nat
  have h := foldl_base_lt SHA256.M32 (by decide) (SHA256.sha256Words msg)
    (sha256Words_shape msg).2
  rwa [(sha256Words_shape msg).1] at h

theorem sha256Hex_eq_of_nat_eq (m1 m2 : List Nat)
    (h : SHA256.sha256Nat m1 = SHA256.sha256Nat m2) :
    SHA256.sha256Hex m1 = SHA256.sha256Hex m2 := by
  have hwords : SHA256.sha256Words m1 = SHA256.sha256Words m2 := by
    apply foldl_base_inj SHA256.M32 (by decide)
    · rw [(sha256Words_shape m1).1, (sha256Words_shape m2).1]
    · exact (sha256Words_shape m1).2
    · exact (sha256Words_shape m2).2
    · exact h
  unfold SHA256.sha256Hex
  rw [hwords]

theorem join_foldl_replicate_a_len :
    ∀ (n : Nat) (acc : String),
      (List.foldl (fun r s => r ++ s) acc (List.replicate n "a")).length = acc.length + n := by
  intro n
  induction n with
  | zero => intro acc; simp [List.replicate]
  | succ m ih =>
      intro acc
      rw [List.replicate_succ, List.foldl_cons, ih, String.length_append]
      rw [show ("a" : String).length = 1 from rfl]
      omega

theorem join_replicate_a_len (n : Nat) : (String.join (List.replicate n "a")).length = n := by
  show (List.foldl (fun r s => r ++ s) "" (List.replicate n "a")).length = n
  rw [join_foldl_replicate_a_len]
  rw [show ("" : String).length = 0 from rfl]
  omega

theorem jsonString_replicate_a_len (n : Nat) :
    (jsonString (String.mk (List.replicate n 'a'))).length = n + 2 := by
  unfold jsonString
  rw [String.length_append, String.length_append]
  rw [show (String.mk (List.replicate n 'a')).toList = List.replicate n 'a' from rfl]
  rw [List.map_replicate]
  rw [show jsonEscapeChar 'a' = "a" from by decide]
  rw [join_replicate_a_len]
  rw [show ("\"" : String).length = 1 from rfl]
  omega

theorem famC3_serial_len (n : Nat) :
    (jsonSerialize (PyValue.dict (famC3 n))).length = n + 9 := by
  rw [show jsonSerialize (PyValue.dict (famC3 n)) =
      "\x7b" ++ ("\"k\"" ++ ": " ++ jsonString (String.mk (List.replicate n 'a'))) ++ "\x7d"
      from rfl]
  rw [String.length_append, String.length_append, String.length_append, String.length_append,
    jsonString_replicate_a_len]
  rw [show ("\x7b" : String).length = 1 from rfl, show ("\x7d" : String).length = 1 from rfl,
    show ("\"k\"" : String).length = 3 from rfl, show (": " : String).length = 2 from rfl]
  omega

/-- **C3, counterexample.**  The claim's "iff" fails right-to-left: `calculate_hash`
compresses every serialization into a 64-hex-digit digest (256 bits), so by
pigeonhole over the infinite payload family `famC3` there are two payloads with
the same digest whose canonical serializations differ (they even have different
lengths).  Equal digests therefore do not imply byte-identical serializations. -/
theorem C3_counterexample :
    ∃ p1 p2 : PyDict,
      StateManager.calculate_hash p1 = StateManager.calculate_hash p2 ∧
      jsonSerialize (PyValue.dict p1) ≠ jsonSerialize (PyValue.dict p2) := by
  obtain ⟨n1, n2, hne, heq⟩ := Finite.exists_ne_map_eq_of_infinite
    (fun n : ℕ =>
      (⟨SHA256.sha256Nat (utf8Encode (jsonSerialize (PyValue.dict (famC3 n)))),
        sha256Nat_lt _⟩ : Fin (SHA256.M32 ^ 8)))
  refine ⟨famC3 n1, famC3 n2, ?_, ?_⟩
  · have hnat : SHA256.sha256Nat (utf8Encode (jsonSerialize (PyValue.dict (famC3 n1)))) =
        SHA256.sha256Nat (utf8Encode (jsonSerialize (PyValue.dict (famC3 n2)))) :=
      congrArg Fin.val heq
    unfold StateManager.calculate_hash
    exact sha256Hex_eq_of_nat_eq _ _ hnat
  · intro hc
    have hlen := congrArg String.length hc
    rw [famC3_serial_len n1, famC3_serial_len n2] at hlen
    exact hne (by omega)

theorem lookup_eq_some_mem {β : Type} :
    ∀ (l : List (String × β)) (k : String) (v : β),
      l.lookup k = Option.some v → (k, v) ∈ l := by
  intro l
  induction l with
  | nil => intro k v h; simp [List.lookup] at h
  | cons p t ih =>
      intro k v h
      obtain ⟨k', v'⟩ := p
      rw [List.lookup] at h
      cases hk : (k == k') with
      | true =>
          rw [hk] at h
          simp only [Option.some.injEq] at h
          have : k = k' := by simpa using hk
          subst this
          subst h
          exact List.mem_cons_self (k, v') t
      | false =>
          rw [hk] at h
          exact List.mem_cons_of_mem _ (ih k v h)

theorem lookup_of_mem_nodup {β : Type} :
    ∀ (l : List (String × β)) (k : String) (v : β),
      (k, v) ∈ l → (l.map Prod.fst).Nodup → l.lookup k = Option.some v := by
  intro l
  induction l with
  | nil => intro k v h _; simp at h
  | cons p t ih =>
      intro k v h hnd
      obtain ⟨k', v'⟩ := p
      have hnd' : (∀ x, (k', x) ∉ t) ∧ (t.map Prod.fst).Nodup := by
        simpa using hnd
      rcases List.mem_cons.mp h with h0 | h0
      · rw [show k = k' from congrArg Prod.fst h0, List.lookup]
        simp only [beq_self_eq_true]
        exact congrArg Option.some (congrArg Prod.snd h0).symm
      · have hne : k ≠ k' := by
          intro hc
          subst hc
          exact hnd'.1 v h0
        rw [List.lookup, beq_eq_false_iff_ne.mpr hne]
        exact ih k v h0 hnd'.2

theorem lookup_eq_none_iff_keys {β : Type} :
    ∀ (l : List (String × β)) (k : String),
      l.lookup k = Option.none ↔ k ∉ l.map Prod.fst := by
  intro l
  induction l with
  | nil => intro k; simp [List.lookup]
  | cons p t ih =>
      intro k
      obtain ⟨k', v'⟩ := p
      rw [List.lookup]
      cases hk : (k == k') with
      | true =>
          have : k = k' := by simpa using hk
          subst this
          simp
      | false =>
          have hne : k ≠ k' := by simpa using hk
          simp [hne, ih k]

theorem lookup_perm {β : Type} (l1 l2 : List (String × β)) (hp : l1.Perm l2)
    (hnd : (l1.map Prod.fst).Nodup) (k : String) : l1.lookup k = l2.lookup k := by
  have hnd2 : (l2.map Prod.fst).Nodup := ((hp.map Prod.fst).nodup_iff).mp hnd
  cases h1 : l1.lookup k with
  | none =>
      have hk := (lookup_eq_none_iff_keys l1 k).mp h1
      have hk2 : k ∉ l2.map Prod.fst := fun hc => hk (((hp.map Prod.fst).mem_iff).mpr hc)
      exact ((lookup_eq_none_iff_keys l2 k).mpr hk2).symm
  | some v =>
      have hm2 : (k, v) ∈ l2 := hp.mem_iff.mp (lookup_eq_some_mem l1 k v h1)
      exact (lookup_of_mem_nodup l2 k v hm2 hnd2).symm

theorem map_record_go_congr (cfg : SyncConfig) (r1 r2 : PyDict)
    (hl : ∀ k, r1.lookup k = r2.lookup k) :
    ∀ (fm : List (String × String)) (mapped : PyDict),
      SyncConfig.map_record_go cfg r1 fm mapped =
        SyncConfig.map_record_go cfg r2 fm mapped := by
  intro fm
  induction fm with
  | nil => intro mapped; rfl
  | cons p rest ih =>
      intro mapped
      obtain ⟨sf, tf⟩ := p
      unfold SyncConfig.map_record_go
      rw [hl sf]
      cases hv : r2.lookup sf with
      | none => exact ih mapped
      | some value =>
          dsimp only
          cases htv : SyncConfig.transform_value cfg sf value with
          | ok tv => exact ih _
          | error e => rfl

theorem map_record_perm (cfg : SyncConfig) (r1 r2 : PyDict) (hp : r1.Perm r2)
    (hnd : (r1.map Prod.fst).Nodup) :
    SyncConfig.map_record cfg r1 = SyncConfig.map_record cfg r2 := by
  unfold SyncConfig.map_record
  exact map_record_go_congr cfg r1 r2 (lookup_perm r1 r2 hp hnd) cfg.field_mappings []

theorem jsonSerializePairs_eq_map :
    ∀ kvs : List (String × PyValue),
      jsonSerializePairs kvs = kvs.map (fun p => (p.1, jsonSerialize p.2)) := by
  intro kvs
  induction kvs with
  | nil => rfl
  | cons p t ih =>
      obtain ⟨k, v⟩ := p
      rw [jsonSerializePairs, ih, List.map_cons]

theorem sorted_keys_perm_eq :
    ∀ l1 l2 : List (String × String), l1.Perm l2 →
      l1.Sorted (fun a b => a.1 ≤ b.1) → l2.Sorted (fun a b => a.1 ≤ b.1) →
      (l1.map Prod.fst).Nodup → l1 = l2 := by
  intro l1
  induction l1 with
  | nil =>
      intro l2 hp _ _ _
      exact (hp.symm.eq_nil).symm
  | cons a t1 ih =>
      intro l2 hp hs1 hs2 hnd
      cases l2 with
      | nil => exact absurd hp.eq_nil (by simp)
      | cons b t2 =>
          have hamem : a ∈ b :: t2 := hp.mem_iff.mp (List.mem_cons_self a t1)
          have hbmem : b ∈ a :: t1 := hp.symm.mem_iff.mp (List.mem_cons_self b t2)
          have hndc : (∀ x, (a.1, x) ∉ t1) ∧ (t1.map Prod.fst).Nodup := by
            simpa using hnd
          have hab : a = b := by
            rcases List.mem_cons.mp hamem with h | h
            · exact h
            · rcases List.mem_cons.mp hbmem with h' | h'
              · exact h'.symm
              · have h1 : a.1 ≤ b.1 := (List.pairwise_cons.mp hs1).1 b h'
                have h2 : b.1 ≤ a.1 := (List.pairwise_cons.mp hs2).1 a h
                exfalso
                apply hndc.1 b.2
                rw [le_antisymm h1 h2]
                exact h'
          subst hab
          rw [ih t2 hp.cons_inv (List.pairwise_cons.mp hs1).2
            (List.pairwise_cons.mp hs2).2 hndc.2]

theorem calculate_hash_perm (p1 p2 : PyDict) (hp : p1.Perm p2)
    (hnd : (p1.map Prod.fst).Nodup) :
    StateManager.calculate_hash p1 = StateManager.calculate_hash p2 := by
  have hpp : (jsonSerializePairs p1).Perm (jsonSerializePairs p2) := by
    rw [jsonSerializePairs_eq_map, jsonSerializePairs_eq_map]
    exact hp.map _
  have hknd : ((jsonSerializePairs p1).map Prod.fst).Nodup := by
    rw [jsonSerializePairs_eq_map, List.map_map]
    exact hnd
  have hsort : List.insertionSort (fun a b => a.1 ≤ b.1) (jsonSerializePairs p1) =
      List.insertionSort (fun a b => a.1 ≤ b.1) (jsonSerializePairs p2) := by
    apply sorted_keys_perm_eq
    · exact (List.perm_insertionSort _ _).trans
        (hpp.trans (List.perm_insertionSort _ _).symm)
    · exact List.sorted_insertionSort _ _
    · exact List.sorted_insertionSort _ _
    · exact (((List.perm_insertionSort _ _).map Prod.fst).nodup_iff).mpr hknd
  have hdict : ∀ kvs : List (String × PyValue), jsonSerialize (PyValue.dict kvs) =
      "\x7b" ++ String.intercalate ", "
        ((List.insertionSort (fun a b => a.1 ≤ b.1) (jsonSerializePairs kvs)).map
          (fun p => jsonString p.1 ++ ": " ++ p.2)) ++ "\x7d" := fun _ => rfl
  unfold StateManager.calculate_hash
  rw [hdict, hdict, hsort]

/-- **C3 (amended).**  Fingerprint determinism holds in the forward direction
and as order-invariance: byte-identical canonical serializations give equal
digests; `map_record` is invariant to the in-memory insertion order of the
source row's fields (for rows with distinct field names, as a real row has);
and `calculate_hash` is invariant to the insertion order of the payload's keys
(for payloads with distinct keys, as `map_record` produces) because
`sort_keys=True` canonicalizes the ordering.  The converse direction of the
claimed "iff" — equal digests imply identical serializations — is false:
SHA-256 compresses infinitely many serializations into 2^256 digests. -/
theorem C3_fingerprint_determinism (cfg : SyncConfig) (r1 r2 p1 p2 : PyDict) :
    (jsonSerialize (PyValue.dict p1) = jsonSerialize (PyValue.dict p2) →
      StateManager.calculate_hash p1 = StateManager.calculate_hash p2) ∧
    (r1.Perm r2 → (r1.map Prod.fst).Nodup →
      SyncConfig.map_record cfg r1 = SyncConfig.map_record cfg r2) ∧
    (p1.Perm p2 → (p1.map Prod.fst).Nodup →
      StateManager.calculate_hash p1 = StateManager.calculate_hash p2) := by
  refine ⟨?_, ?_, ?_⟩
  · intro h
    unfold StateManager.calculate_hash
    rw [h]
  · intro hp hnd
    exact map_record_perm cfg r1 r2 hp hnd
  · intro hp hnd
    exact calculate_hash_perm p1 p2 hp hnd

/-- Concrete instance of C3's order-invariance: swapping the two keys of a
payload does not change its digest, and swapping the two fields of a source
row does not change the mapped record. -/
theorem C3_fingerprint_determinism_witness :
    StateManager.calculate_hash [("a", PyValue.int 1), ("b", PyValue.bool true)] =
      StateManager.calculate_hash [("b", PyValue.bool true), ("a", PyValue.int 1)] ∧
    SyncConfig.map_record cfgEx [("id", PyValue.int 1), ("v", PyValue.str "x")] =
      SyncConfig.map_record cfgEx [("v", PyValue.str "x"), ("id", PyValue.int 1)] := by
  constructor
  · exact (C3_fingerprint_determinism cfgEx [] []
      [("a", PyValue.int 1), ("b", PyValue.bool true)]
      [("b", PyValue.bool true), ("a", PyValue.int 1)]).2.2
      (List.Perm.swap _ _ _) (by decide)
  · exact (C3_fingerprint_determinism cfgEx
      [("id", PyValue.int 1), ("v", PyValue.str "x")]
      [("v", PyValue.str "x"), ("id", PyValue.int 1)] [] []).2.1
      (List.Perm.swap _ _ _) (by decide)
